import Mathlib

/-!
Verification of the RISC-V 32-bit web simulator core: bit-field codecs,
ALU, control unit, single-cycle processor step, and the two-pass assembler.

JavaScript 32-bit integer semantics are embedded as follows: a JS `x >>> 0`
value is a `Nat` below `2^32` (its unsigned image), a JS `x | 0` value is an
`Int` in `[-2^31, 2^31)`.  The JS operators `&`, `|`, `^`, `<<`, `>>`, `>>>`
are modeled on those images: bitwise operators act on the unsigned images
(which commutes with two's-complement representation), `<<` multiplies by a
power of two modulo `2^32`, `>>` is an arithmetic shift (floor division of
the signed value), `>>>` is a logical shift of the unsigned image.
-/

set_option maxHeartbeats 1600000

/-- Unsigned 32-bit image of a JS number (the JS `x >>> 0` coercion). -/
def u32 (x : Int) : Nat := (x % (2 : Int) ^ 32).toNat

/-- Signed 32-bit value represented by an unsigned image (JS `x | 0` on a
nonnegative value below `2^32`). -/
def i32 (n : Nat) : Int :=
  if n % 2 ^ 32 < 2 ^ 31 then ((n % 2 ^ 32 : Nat) : Int)
  else ((n % 2 ^ 32 : Nat) : Int) - 2 ^ 32

/-- The JS `ToInt32` coercion (`x | 0`). -/
def toInt32 (x : Int) : Int := i32 (u32 x)

/-- JS `x << n` (shift count taken mod 32, result a signed 32-bit value). -/
def jsShlInt (x : Int) (n : Nat) : Int := i32 ((u32 x) <<< (n % 32))

/-- JS `x >> n` (arithmetic shift: floor division of the signed value). -/
def jsShrInt (x : Int) (n : Nat) : Int := Int.fdiv (toInt32 x) ((2 : Int) ^ (n % 32))

/-- From src/unnamed/part_001 (`utils.js`):
`signExtend(value, bits) = (value << shift) >> shift` with `shift = 32 - bits`. -/
def signExtend (value : Int) (bits : Nat) : Int :=
  jsShrInt (jsShlInt value (32 - bits)) (32 - bits)

/-- From src/unnamed/part_003 (`alu.js`): the ALU.  Both operands are first
coerced with `| 0`; the result is returned as `res >>> 0`.  The `switch` on
`alu_op` is modeled as a cascade of equality tests in source order. -/
def alu (a0 b0 : Int) (alu_op : Nat) : Nat :=
  let a := toInt32 a0
  let b := toInt32 b0
  let res : Int :=
    if alu_op = 0x0 then toInt32 (a + b)                          -- ADD
    else if alu_op = 0x1 then toInt32 (a - b)                     -- SUB
    else if alu_op = 0x2 then jsShlInt a (u32 b &&& 0x1f)         -- SLL
    else if alu_op = 0x3 then (if a < b then 1 else 0)            -- SLT
    else if alu_op = 0x4 then (if u32 a < u32 b then 1 else 0)    -- SLTU
    else if alu_op = 0x5 then i32 (u32 a ^^^ u32 b)               -- XOR
    else if alu_op = 0x6 then ((u32 a) >>> (u32 b &&& 0x1f) : Nat)  -- SRL
    else if alu_op = 0x7 then jsShrInt a (u32 b &&& 0x1f)         -- SRA
    else if alu_op = 0x8 then i32 (u32 a ||| u32 b)               -- OR
    else if alu_op = 0x9 then i32 (u32 a &&& u32 b)               -- AND
    else if alu_op = 0xa then (if a = b then 1 else 0)            -- SEQ
    else if alu_op = 0xb then (if a = b then 1 else 0)            -- BEQ comparator
    else if alu_op = 0xc then (if a < b then 1 else 0)            -- BLT comparator
    else if alu_op = 0xd then (if u32 a < u32 b then 1 else 0)    -- BLTU comparator
    else 0
  u32 res

/-- Decoded instruction record (src/src/core/cpu.js `decode`). -/
structure Decoded where
  opcode : Nat
  rd : Nat
  funct3 : Nat
  rs1 : Nat
  rs2 : Nat
  funct7 : Nat
  imm : Int
  immType : String
  deriving Repr, DecidableEq

/-- Control signals (src/src/core/control.js).  The source uses the JS
numbers 0/1 for the flag fields, so they are `Nat` here. -/
structure Ctrl where
  alu_src : Nat
  alu2reg : Nat
  wem : Nat
  branch : Nat
  branch_ne : Nat
  alu_op : Nat
  deriving Repr, DecidableEq

/-- From src/src/core/control.js: the control unit decision table. -/
def controlUnit (d : Decoded) : Ctrl :=
  if d.opcode = 0x33 then
    -- R-type
    let alu_op :=
      if d.funct3 = 0x0 then (if d.funct7 = 0x20 then 0x1 else 0x0)
      else if d.funct3 = 0x7 then 0x9
      else if d.funct3 = 0x6 then 0x8
      else if d.funct3 = 0x4 then 0x5
      else if d.funct3 = 0x2 then 0x3
      else if d.funct3 = 0x3 then 0x4
      else if d.funct3 = 0x1 then 0x2
      else if d.funct3 = 0x5 then (if d.funct7 = 0x20 then 0x7 else 0x6)
      else 0
    ⟨0, 0, 0, 0, 0, alu_op⟩
  else if d.opcode = 0x13 then
    -- I-type ALU
    let alu_op :=
      if d.funct3 = 0x0 then 0x0
      else if d.funct3 = 0x2 then 0x3
      else if d.funct3 = 0x3 then 0x4
      else if d.funct3 = 0x4 then 0x5
      else if d.funct3 = 0x6 then 0x8
      else if d.funct3 = 0x7 then 0x9
      else if d.funct3 = 0x1 then 0x2
      else if d.funct3 = 0x5 then (if d.funct7 = 0x20 then 0x7 else 0x6)
      else 0
    ⟨1, 0, 0, 0, 0, alu_op⟩
  else if d.opcode = 0x03 then
    -- LOAD (LW)
    ⟨1, 1, 0, 0, 0, 0x0⟩
  else if d.opcode = 0x23 then
    -- STORE (SW)
    ⟨1, 0, 1, 0, 0, 0x0⟩
  else if d.opcode = 0x63 then
    -- BRANCH
    let p : Nat × Nat :=
      if d.funct3 = 0x0 then (0xb, 0)
      else if d.funct3 = 0x1 then (0xb, 1)
      else if d.funct3 = 0x4 then (0x3, 0)
      else if d.funct3 = 0x5 then (0x3, 1)
      else if d.funct3 = 0x6 then (0x4, 0)
      else if d.funct3 = 0x7 then (0x4, 1)
      else (0, 0)
    ⟨0, 0, 0, 1, p.2, p.1⟩
  else
    ⟨0, 0, 0, 0, 0, 0⟩

/-- From src/src/core/cpu.js `decode(instr)`: field extraction plus
format-dependent immediate reassembly and sign extension. -/
def decode (instr : Nat) : Decoded :=
  let opcode := instr &&& 0x7f
  let rd := (instr >>> 7) &&& 0x1f
  let funct3 := (instr >>> 12) &&& 0x7
  let rs1 := (instr >>> 15) &&& 0x1f
  let rs2 := (instr >>> 20) &&& 0x1f
  let funct7 := (instr >>> 25) &&& 0x7f
  let p : Int × String :=
    if opcode = 0x13 ∨ opcode = 0x03 then
      (signExtend ((instr >>> 20 : Nat) : Int) 12, "I")
    else if opcode = 0x23 then
      let imm4_0 := (instr >>> 7) &&& 0x1f
      let imm11_5 := (instr >>> 25) &&& 0x7f
      (signExtend (((imm11_5 <<< 5) ||| imm4_0 : Nat) : Int) 12, "S")
    else if opcode = 0x63 then
      let imm12 := (instr >>> 31) &&& 0x1
      let imm10_5 := (instr >>> 25) &&& 0x3f
      let imm4_1 := (instr >>> 8) &&& 0x0f
      let imm11 := (instr >>> 7) &&& 0x1
      let raw := (imm12 <<< 12) ||| (imm11 <<< 11) ||| (imm10_5 <<< 5) ||| (imm4_1 <<< 1)
      (signExtend ((raw : Nat) : Int) 13, "B")
    else (0, "")
  ⟨opcode, rd, funct3, rs1, rs2, funct7, p.1, p.2⟩

/-- From src/src/core/cpu.js `assembleLine`: the R-format encoder closure.
Register/function fields are the `Nat` values produced by `reg`. -/
def encodeR (funct7 rs2 rs1 funct3 rd opcode : Nat) : Nat :=
  (((funct7 &&& 0x7f) <<< 25) % 2 ^ 32) |||
  ((rs2 &&& 0x1f) <<< 20) |||
  ((rs1 &&& 0x1f) <<< 15) |||
  ((funct3 &&& 0x7) <<< 12) |||
  ((rd &&& 0x1f) <<< 7) |||
  (opcode &&& 0x7f)

/-- From src/src/core/cpu.js `assembleLine`: the I-format encoder closure. -/
def encodeI (imm : Int) (rs1 funct3 rd opcode : Nat) : Nat :=
  let imm12 := u32 imm &&& 0xfff
  (((imm12 &&& 0xfff) <<< 20) % 2 ^ 32) |||
  ((rs1 &&& 0x1f) <<< 15) |||
  ((funct3 &&& 0x7) <<< 12) |||
  ((rd &&& 0x1f) <<< 7) |||
  (opcode &&& 0x7f)

/-- From src/src/core/cpu.js `assembleLine`: the S-format encoder closure. -/
def encodeS (imm : Int) (rs2 rs1 funct3 opcode : Nat) : Nat :=
  let imm12 := u32 imm &&& 0xfff
  let imm4_0 := imm12 &&& 0x1f
  let imm11_5 := (imm12 >>> 5) &&& 0x7f
  (((imm11_5 &&& 0x7f) <<< 25) % 2 ^ 32) |||
  ((rs2 &&& 0x1f) <<< 20) |||
  ((rs1 &&& 0x1f) <<< 15) |||
  ((funct3 &&& 0x7) <<< 12) |||
  ((imm4_0 &&& 0x1f) <<< 7) |||
  (opcode &&& 0x7f)

/-- From src/src/core/cpu.js `assembleLine`: the B-format encoder closure. -/
def encodeB (imm : Int) (rs2 rs1 funct3 opcode : Nat) : Nat :=
  let imm13 := u32 imm &&& 0x1fff
  let imm12 := (imm13 >>> 12) &&& 0x1
  let imm10_5 := (imm13 >>> 5) &&& 0x3f
  let imm4_1 := (imm13 >>> 1) &&& 0x0f
  let imm11 := (imm13 >>> 11) &&& 0x1
  (((imm12 &&& 0x1) <<< 31) % 2 ^ 32) |||
  (((imm10_5 &&& 0x3f) <<< 25) % 2 ^ 32) |||
  ((rs2 &&& 0x1f) <<< 20) |||
  ((rs1 &&& 0x1f) <<< 15) |||
  ((funct3 &&& 0x7) <<< 12) |||
  ((imm4_1 &&& 0x0f) <<< 8) |||
  ((imm11 &&& 0x1) <<< 7) |||
  (opcode &&& 0x7f)

/-- From src/src/core/cpu.js `assembleLine`: the U-format encoder closure. -/
def encodeU (imm : Int) (rd opcode : Nat) : Nat :=
  let imm20 := u32 imm &&& 0xfffff
  (((imm20 &&& 0xfffff) <<< 12) % 2 ^ 32) |||
  ((rd &&& 0x1f) <<< 7) |||
  (opcode &&& 0x7f)

/-- From src/src/core/cpu.js `assembleLine`: the J-format encoder closure. -/
def encodeJ (imm : Int) (rd opcode : Nat) : Nat :=
  let imm21 := u32 imm &&& 0x1fffff
  let imm20 := (imm21 >>> 20) &&& 0x1
  let imm10_1 := (imm21 >>> 1) &&& 0x3ff
  let imm11 := (imm21 >>> 11) &&& 0x1
  let imm19_12 := (imm21 >>> 12) &&& 0xff
  (((imm20 &&& 0x1) <<< 31) % 2 ^ 32) |||
  ((imm19_12 &&& 0xff) <<< 12) |||
  ((imm11 &&& 0x1) <<< 20) |||
  (((imm10_1 &&& 0x3ff) <<< 21) % 2 ^ 32) |||
  ((rd &&& 0x1f) <<< 7) |||
  (opcode &&& 0x7f)

/-! ### Arithmetic facts about the JS primitives -/

theorem u32_lt (x : Int) : u32 x < 2 ^ 32 := by
  unfold u32; omega

theorem u32_natCast (n : Nat) : u32 (n : Int) = n % 2 ^ 32 := by
  unfold u32; omega

theorem u32_natCast_lt {n : Nat} (h : n < 2 ^ 32) : u32 (n : Int) = n := by
  unfold u32; omega

theorem u32_congr {x y : Int} (h : x % 2 ^ 32 = y % 2 ^ 32) : u32 x = u32 y := by
  unfold u32; omega

theorem i32_emod (n : Nat) : i32 n % (2 : Int) ^ 32 = (n : Int) % 2 ^ 32 := by
  unfold i32; split <;> omega

theorem i32_bounds (n : Nat) : -(2 : Int) ^ 31 ≤ i32 n ∧ i32 n < 2 ^ 31 := by
  unfold i32; split <;> omega

theorem i32_of_lt {n : Nat} (h : n < 2 ^ 31) : i32 n = (n : Int) := by
  unfold i32; split <;> omega

theorem i32_of_ge {n : Nat} (h1 : 2 ^ 31 ≤ n) (h2 : n < 2 ^ 32) :
    i32 n = (n : Int) - 2 ^ 32 := by
  unfold i32; split <;> omega

theorem toInt32_emod (x : Int) : toInt32 x % 2 ^ 32 = x % 2 ^ 32 := by
  unfold toInt32 u32 i32; split <;> omega

theorem toInt32_bounds (x : Int) : -(2 : Int) ^ 31 ≤ toInt32 x ∧ toInt32 x < 2 ^ 31 := by
  unfold toInt32 u32 i32; split <;> omega

theorem u32_toInt32 (x : Int) : u32 (toInt32 x) = u32 x :=
  u32_congr (toInt32_emod x)

theorem u32_i32 (n : Nat) : u32 (i32 n) = n % 2 ^ 32 := by
  have h := i32_emod n
  unfold u32; omega

theorem toInt32_natCast_lt {n : Nat} (h : n < 2 ^ 31) : toInt32 (n : Int) = (n : Int) := by
  unfold toInt32
  rw [u32_natCast_lt (by omega)]
  exact i32_of_lt h

/-- Disjoint bitwise-or is addition: the key fact for normalizing the
encoders' or-chains into sums. -/
theorem or_eq_add_of_dvd {a b : Nat} (i : Nat) (ha : 2 ^ i ∣ a) (hb : b < 2 ^ i) :
    a ||| b = a + b := by
  obtain ⟨c, rfl⟩ := ha
  exact (Nat.mul_add_lt_is_or hb c).symm

theorem and_mask (x : Nat) (i : Nat) : x &&& (2 ^ i - 1) = x % 2 ^ i :=
  Nat.and_pow_two_sub_one_eq_mod x i

/-- `signExtend` on an in-range unsigned value: identity below the sign bit,
subtraction of `2^bits` at or above it. -/
theorem signExtend_spec (v : Nat) (bits : Nat) (h0 : 0 < bits) (h32 : bits ≤ 32)
    (hv : v < 2 ^ bits) :
    signExtend (v : Int) bits =
      if v < 2 ^ (bits - 1) then (v : Int) else (v : Int) - 2 ^ bits := by
  have hs : (32 - bits) % 32 = 32 - bits := Nat.mod_eq_of_lt (by omega)
  have hp : 0 < 2 ^ (32 - bits) := Nat.pos_pow_of_pos _ (by omega)
  have hpow : 2 ^ bits * 2 ^ (32 - bits) = 2 ^ 32 := by
    rw [← pow_add]; congr 1; omega
  have hpow' : 2 ^ (bits - 1) * 2 ^ (32 - bits) = 2 ^ 31 := by
    rw [← pow_add]; congr 1; omega
  have hlt : v <<< (32 - bits) < 2 ^ 32 := by
    rw [Nat.shiftLeft_eq, ← hpow]
    exact (Nat.mul_lt_mul_right hp).mpr hv
  unfold signExtend jsShrInt jsShlInt
  rw [hs, u32_natCast_lt (lt_of_lt_of_le hv (Nat.pow_le_pow_right (by omega) h32))]
  by_cases hc : v < 2 ^ (bits - 1)
  · -- no sign bit: everything stays nonnegative
    have hlt31 : v <<< (32 - bits) < 2 ^ 31 := by
      rw [Nat.shiftLeft_eq, ← hpow']
      exact (Nat.mul_lt_mul_right hp).mpr hc
    rw [i32_of_lt hlt31, toInt32_natCast_lt hlt31, if_pos hc]
    rw [Nat.shiftLeft_eq]
    push_cast
    rw [Int.mul_fdiv_cancel _ (by positivity)]
  · -- sign bit set
    have hge : 2 ^ 31 ≤ v <<< (32 - bits) := by
      rw [Nat.shiftLeft_eq, ← hpow']
      exact Nat.mul_le_mul_right _ (by omega)
    rw [i32_of_ge hge hlt, if_neg hc]
    have hpz : (2 : Int) ^ bits * 2 ^ (32 - bits) = 2 ^ 32 := by exact_mod_cast hpow
    have hrw : ((v <<< (32 - bits) : Nat) : Int) - 2 ^ 32 =
        ((v : Int) - 2 ^ bits) * 2 ^ (32 - bits) := by
      rw [Nat.shiftLeft_eq, Int.sub_mul, hpz]
      push_cast
      ring
    have ht : toInt32 (((v <<< (32 - bits) : Nat) : Int) - 2 ^ 32) =
        ((v <<< (32 - bits) : Nat) : Int) - 2 ^ 32 := by
      unfold toInt32 u32 i32
      have h31 : (2 : Int) ^ 31 ≤ ((v <<< (32 - bits) : Nat) : Int) := by exact_mod_cast hge
      have h32' : ((v <<< (32 - bits) : Nat) : Int) < 2 ^ 32 := by exact_mod_cast hlt
      split <;> omega
    rw [ht, hrw, Int.mul_fdiv_cancel _ (by positivity)]

/-! ### C2: ALU totality, wrapping, shift masking, comparator range -/

theorem alu_lt (a b : Int) (op : Nat) : alu a b op < 2 ^ 32 := u32_lt _

/-- C2: for every pair of 32-bit operands and every defined ALU operation
code, `alu` is fully determined and returns a 32-bit unsigned result; ADD and
SUB wrap modulo `2^32`, shifts use only the low 5 bits of `b`, the
comparison operations return exactly 0 or 1, and any undefined operation
code returns 0. -/
theorem C2_alu_total (a b : Nat) (ha : a < 2 ^ 32) (hb : b < 2 ^ 32) :
    (∀ op : Nat, alu (a : Int) (b : Int) op < 2 ^ 32)
    ∧ alu (a : Int) (b : Int) 0x0 = (a + b) % 2 ^ 32
    ∧ alu (a : Int) (b : Int) 0x1 = (a + (2 ^ 32 - b)) % 2 ^ 32
    ∧ (∀ op : Nat, op = 0x2 ∨ op = 0x6 ∨ op = 0x7 →
        alu (a : Int) (b : Int) op = alu (a : Int) ((b % 32 : Nat) : Int) op)
    ∧ (∀ op : Nat, op = 0x3 ∨ op = 0x4 ∨ op = 0xa ∨ op = 0xb ∨ op = 0xc ∨ op = 0xd →
        alu (a : Int) (b : Int) op = 0 ∨ alu (a : Int) (b : Int) op = 1)
    ∧ (∀ op : Nat, 0xd < op → alu (a : Int) (b : Int) op = 0) := by
  have hcount : u32 (toInt32 (b : Int)) &&& 0x1f = u32 (toInt32 ((b % 32 : Nat) : Int)) &&& 0x1f := by
    have h31 : ∀ x : Nat, x &&& 31 = x % 32 := fun x => and_mask x 5
    rw [u32_toInt32, u32_toInt32, u32_natCast_lt hb, u32_natCast_lt (by omega)]
    rw [h31 b, h31 (b % 32)]
    omega
  refine ⟨fun op => alu_lt _ _ _, ?_, ?_, ?_, ?_, ?_⟩
  · -- ADD wraps
    show u32 (toInt32 (toInt32 (a : Int) + toInt32 (b : Int))) = (a + b) % 2 ^ 32
    rw [u32_toInt32]
    have h1 := toInt32_emod (a : Int)
    have h2 := toInt32_emod (b : Int)
    unfold u32
    omega
  · -- SUB wraps
    show u32 (toInt32 (toInt32 (a : Int) - toInt32 (b : Int))) = (a + (2 ^ 32 - b)) % 2 ^ 32
    rw [u32_toInt32]
    have h1 := toInt32_emod (a : Int)
    have h2 := toInt32_emod (b : Int)
    unfold u32
    omega
  · -- shifts read only the low 5 bits of b
    rintro op (rfl | rfl | rfl)
    · show u32 (jsShlInt (toInt32 (a : Int)) (u32 (toInt32 (b : Int)) &&& 0x1f)) =
          u32 (jsShlInt (toInt32 (a : Int)) (u32 (toInt32 ((b % 32 : Nat) : Int)) &&& 0x1f))
      rw [hcount]
    · show u32 ((u32 (toInt32 (a : Int)) >>> (u32 (toInt32 (b : Int)) &&& 0x1f) : Nat) : Int) =
          u32 ((u32 (toInt32 (a : Int)) >>> (u32 (toInt32 ((b % 32 : Nat) : Int)) &&& 0x1f) : Nat) : Int)
      rw [hcount]
    · show u32 (jsShrInt (toInt32 (a : Int)) (u32 (toInt32 (b : Int)) &&& 0x1f)) =
          u32 (jsShrInt (toInt32 (a : Int)) (u32 (toInt32 ((b % 32 : Nat) : Int)) &&& 0x1f))
      rw [hcount]
  · -- comparison results are bits
    rintro op (rfl | rfl | rfl | rfl | rfl | rfl)
    · by_cases hc : toInt32 (a : Int) < toInt32 (b : Int)
      · right
        show u32 (if toInt32 (a : Int) < toInt32 (b : Int) then 1 else 0) = 1
        rw [if_pos hc]; rfl
      · left
        show u32 (if toInt32 (a : Int) < toInt32 (b : Int) then 1 else 0) = 0
        rw [if_neg hc]; rfl
    · by_cases hc : u32 (toInt32 (a : Int)) < u32 (toInt32 (b : Int))
      · right
        show u32 (if u32 (toInt32 (a : Int)) < u32 (toInt32 (b : Int)) then 1 else 0) = 1
        rw [if_pos hc]; rfl
      · left
        show u32 (if u32 (toInt32 (a : Int)) < u32 (toInt32 (b : Int)) then 1 else 0) = 0
        rw [if_neg hc]; rfl
    · by_cases hc : toInt32 (a : Int) = toInt32 (b : Int)
      · right
        show u32 (if toInt32 (a : Int) = toInt32 (b : Int) then 1 else 0) = 1
        rw [if_pos hc]; rfl
      · left
        show u32 (if toInt32 (a : Int) = toInt32 (b : Int) then 1 else 0) = 0
        rw [if_neg hc]; rfl
    · by_cases hc : toInt32 (a : Int) = toInt32 (b : Int)
      · right
        show u32 (if toInt32 (a : Int) = toInt32 (b : Int) then 1 else 0) = 1
        rw [if_pos hc]; rfl
      · left
        show u32 (if toInt32 (a : Int) = toInt32 (b : Int) then 1 else 0) = 0
        rw [if_neg hc]; rfl
    · by_cases hc : toInt32 (a : Int) < toInt32 (b : Int)
      · right
        show u32 (if toInt32 (a : Int) < toInt32 (b : Int) then 1 else 0) = 1
        rw [if_pos hc]; rfl
      · left
        show u32 (if toInt32 (a : Int) < toInt32 (b : Int) then 1 else 0) = 0
        rw [if_neg hc]; rfl
    · by_cases hc : u32 (toInt32 (a : Int)) < u32 (toInt32 (b : Int))
      · right
        show u32 (if u32 (toInt32 (a : Int)) < u32 (toInt32 (b : Int)) then 1 else 0) = 1
        rw [if_pos hc]; rfl
      · left
        show u32 (if u32 (toInt32 (a : Int)) < u32 (toInt32 (b : Int)) then 1 else 0) = 0
        rw [if_neg hc]; rfl
  · -- undefined operation codes return 0
    intro op hop
    simp only [alu]
    iterate 14 rw [if_neg (by omega)]
    rfl

/-- Witness for C2: `ADD(0x7FFFFFFF, 1) = 0x80000000` (32-bit wrap), and
shift masking at a concrete pair. -/
theorem C2_alu_total_witness :
    alu (0x7FFFFFFF : Int) (1 : Int) 0x0 = 0x80000000 ∧
    alu (3 : Int) (33 : Int) 0x2 = alu (3 : Int) (1 : Int) 0x2 := by
  have h := C2_alu_total 0x7FFFFFFF 1 (by norm_num) (by norm_num)
  have h2 := C2_alu_total 3 33 (by norm_num) (by norm_num)
  constructor
  · have := h.2.1
    norm_num at this ⊢
    exact this
  · have := h2.2.2.2.1 0x2 (Or.inl rfl)
    norm_num at this ⊢
    exact this

/-! ### Bit-level helper lemmas for the codecs -/

theorem and1 (x : Nat) : x &&& 1 = x % 2 := and_mask x 1

theorem and7 (x : Nat) : x &&& 7 = x % 8 := and_mask x 3

theorem and15 (x : Nat) : x &&& 15 = x % 16 := and_mask x 4

theorem and31 (x : Nat) : x &&& 31 = x % 32 := and_mask x 5

theorem and63 (x : Nat) : x &&& 63 = x % 64 := and_mask x 6

theorem and127 (x : Nat) : x &&& 127 = x % 128 := and_mask x 7

theorem and4095 (x : Nat) : x &&& 4095 = x % 4096 := and_mask x 12

theorem and8191 (x : Nat) : x &&& 8191 = x % 8192 := and_mask x 13

theorem or_chain3 (k2 k3 t1 t2 t3 : Nat)
    (d2 : 2 ^ k2 ∣ t1) (b2 : t2 < 2 ^ k2)
    (d3 : 2 ^ k3 ∣ t1 + t2) (b3 : t3 < 2 ^ k3) :
    t1 ||| t2 ||| t3 = t1 + t2 + t3 := by
  rw [or_eq_add_of_dvd k2 d2 b2, or_eq_add_of_dvd k3 d3 b3]

theorem or_chain4 (k2 k3 k4 t1 t2 t3 t4 : Nat)
    (d2 : 2 ^ k2 ∣ t1) (b2 : t2 < 2 ^ k2)
    (d3 : 2 ^ k3 ∣ t1 + t2) (b3 : t3 < 2 ^ k3)
    (d4 : 2 ^ k4 ∣ t1 + t2 + t3) (b4 : t4 < 2 ^ k4) :
    t1 ||| t2 ||| t3 ||| t4 = t1 + t2 + t3 + t4 := by
  rw [or_eq_add_of_dvd k2 d2 b2, or_eq_add_of_dvd k3 d3 b3, or_eq_add_of_dvd k4 d4 b4]

theorem or_chain5 (k2 k3 k4 k5 t1 t2 t3 t4 t5 : Nat)
    (d2 : 2 ^ k2 ∣ t1) (b2 : t2 < 2 ^ k2)
    (d3 : 2 ^ k3 ∣ t1 + t2) (b3 : t3 < 2 ^ k3)
    (d4 : 2 ^ k4 ∣ t1 + t2 + t3) (b4 : t4 < 2 ^ k4)
    (d5 : 2 ^ k5 ∣ t1 + t2 + t3 + t4) (b5 : t5 < 2 ^ k5) :
    t1 ||| t2 ||| t3 ||| t4 ||| t5 = t1 + t2 + t3 + t4 + t5 := by
  rw [or_eq_add_of_dvd k2 d2 b2, or_eq_add_of_dvd k3 d3 b3, or_eq_add_of_dvd k4 d4 b4,
    or_eq_add_of_dvd k5 d5 b5]

theorem or_chain6 (k2 k3 k4 k5 k6 t1 t2 t3 t4 t5 t6 : Nat)
    (d2 : 2 ^ k2 ∣ t1) (b2 : t2 < 2 ^ k2)
    (d3 : 2 ^ k3 ∣ t1 + t2) (b3 : t3 < 2 ^ k3)
    (d4 : 2 ^ k4 ∣ t1 + t2 + t3) (b4 : t4 < 2 ^ k4)
    (d5 : 2 ^ k5 ∣ t1 + t2 + t3 + t4) (b5 : t5 < 2 ^ k5)
    (d6 : 2 ^ k6 ∣ t1 + t2 + t3 + t4 + t5) (b6 : t6 < 2 ^ k6) :
    t1 ||| t2 ||| t3 ||| t4 ||| t5 ||| t6 = t1 + t2 + t3 + t4 + t5 + t6 := by
  rw [or_eq_add_of_dvd k2 d2 b2, or_eq_add_of_dvd k3 d3 b3, or_eq_add_of_dvd k4 d4 b4,
    or_eq_add_of_dvd k5 d5 b5, or_eq_add_of_dvd k6 d6 b6]

theorem or_chain8 (k2 k3 k4 k5 k6 k7 k8 t1 t2 t3 t4 t5 t6 t7 t8 : Nat)
    (d2 : 2 ^ k2 ∣ t1) (b2 : t2 < 2 ^ k2)
    (d3 : 2 ^ k3 ∣ t1 + t2) (b3 : t3 < 2 ^ k3)
    (d4 : 2 ^ k4 ∣ t1 + t2 + t3) (b4 : t4 < 2 ^ k4)
    (d5 : 2 ^ k5 ∣ t1 + t2 + t3 + t4) (b5 : t5 < 2 ^ k5)
    (d6 : 2 ^ k6 ∣ t1 + t2 + t3 + t4 + t5) (b6 : t6 < 2 ^ k6)
    (d7 : 2 ^ k7 ∣ t1 + t2 + t3 + t4 + t5 + t6) (b7 : t7 < 2 ^ k7)
    (d8 : 2 ^ k8 ∣ t1 + t2 + t3 + t4 + t5 + t6 + t7) (b8 : t8 < 2 ^ k8) :
    t1 ||| t2 ||| t3 ||| t4 ||| t5 ||| t6 ||| t7 ||| t8 =
      t1 + t2 + t3 + t4 + t5 + t6 + t7 + t8 := by
  rw [or_eq_add_of_dvd k2 d2 b2, or_eq_add_of_dvd k3 d3 b3, or_eq_add_of_dvd k4 d4 b4,
    or_eq_add_of_dvd k5 d5 b5, or_eq_add_of_dvd k6 d6 b6, or_eq_add_of_dvd k7 d7 b7,
    or_eq_add_of_dvd k8 d8 b8]

/-- `encodeR` as a sum of disjoint fields. -/
theorem encodeR_eq (f7 rs2 rs1 f3 rd op : Nat) :
    encodeR f7 rs2 rs1 f3 rd op =
      f7 % 128 * 2 ^ 25 + rs2 % 32 * 2 ^ 20 + rs1 % 32 * 2 ^ 15 + f3 % 8 * 2 ^ 12 +
        rd % 32 * 2 ^ 7 + op % 128 := by
  unfold encodeR
  rw [and127 f7, and31 rs2, and31 rs1, and7 f3, and31 rd, and127 op]
  simp only [Nat.shiftLeft_eq]
  rw [Nat.mod_eq_of_lt (by omega)]
  rw [or_chain6 25 20 15 12 7 _ _ _ _ _ _ (by omega) (by first | omega) (by omega)
    (by first | omega) (by omega) (by first | omega) (by omega) (by first | omega)
    (by omega) (by first | omega)]

/-- `encodeI` as a sum of disjoint fields. -/
theorem encodeI_eq (imm : Int) (rs1 f3 rd op : Nat) :
    encodeI imm rs1 f3 rd op =
      u32 imm % 4096 * 2 ^ 20 + rs1 % 32 * 2 ^ 15 + f3 % 8 * 2 ^ 12 + rd % 32 * 2 ^ 7 +
        op % 128 := by
  unfold encodeI
  simp only [and4095, and31, and7, and127, Nat.shiftLeft_eq]
  rw [Nat.mod_eq_of_lt (by omega)]
  rw [or_chain5 20 15 12 7 _ _ _ _ _ (by omega) (by first | omega) (by omega)
    (by first | omega) (by omega) (by first | omega) (by omega) (by first | omega)]
  omega

/-- `encodeS` as a sum of disjoint fields. -/
theorem encodeS_eq (imm : Int) (rs2 rs1 f3 op : Nat) :
    encodeS imm rs2 rs1 f3 op =
      u32 imm % 4096 / 32 * 2 ^ 25 + rs2 % 32 * 2 ^ 20 + rs1 % 32 * 2 ^ 15 +
        f3 % 8 * 2 ^ 12 + u32 imm % 4096 % 32 * 2 ^ 7 + op % 128 := by
  unfold encodeS
  simp only [and4095, and31, and7, and127, Nat.shiftRight_eq_div_pow, Nat.shiftLeft_eq]
  rw [Nat.mod_eq_of_lt (by omega)]
  rw [or_chain6 25 20 15 12 7 _ _ _ _ _ _ (by omega) (by first | omega) (by omega)
    (by first | omega) (by omega) (by first | omega) (by omega) (by first | omega)
    (by omega) (by first | omega)]
  omega

/-- `encodeB` as a sum of disjoint fields. -/
theorem encodeB_eq (imm : Int) (rs2 rs1 f3 op : Nat) :
    encodeB imm rs2 rs1 f3 op =
      u32 imm % 8192 / 4096 * 2 ^ 31 + u32 imm % 8192 / 32 % 64 * 2 ^ 25 +
        rs2 % 32 * 2 ^ 20 + rs1 % 32 * 2 ^ 15 + f3 % 8 * 2 ^ 12 +
        u32 imm % 8192 / 2 % 16 * 2 ^ 8 + u32 imm % 8192 / 2048 % 2 * 2 ^ 7 +
        op % 128 := by
  unfold encodeB
  simp only [and8191, and1, and63, and15, and31, and7, and127,
    Nat.shiftRight_eq_div_pow, Nat.shiftLeft_eq]
  rw [Nat.mod_eq_of_lt (by omega), Nat.mod_eq_of_lt (by omega)]
  rw [or_chain8 31 25 20 15 12 8 7 _ _ _ _ _ _ _ _ (by omega) (by first | omega)
    (by omega) (by first | omega) (by omega) (by first | omega) (by omega)
    (by first | omega) (by omega) (by first | omega) (by omega) (by first | omega)
    (by omega) (by first | omega)]
  omega

/-! ### Decoder field extraction in arithmetic form -/

theorem decode_opcode (w : Nat) : (decode w).opcode = w % 128 := and127 w

theorem decode_rd (w : Nat) : (decode w).rd = w / 2 ^ 7 % 32 := by
  show w >>> 7 &&& 31 = w / 2 ^ 7 % 32
  rw [Nat.shiftRight_eq_div_pow, and31]

theorem decode_funct3 (w : Nat) : (decode w).funct3 = w / 2 ^ 12 % 8 := by
  show w >>> 12 &&& 7 = w / 2 ^ 12 % 8
  rw [Nat.shiftRight_eq_div_pow, and7]

theorem decode_rs1 (w : Nat) : (decode w).rs1 = w / 2 ^ 15 % 32 := by
  show w >>> 15 &&& 31 = w / 2 ^ 15 % 32
  rw [Nat.shiftRight_eq_div_pow, and31]

theorem decode_rs2 (w : Nat) : (decode w).rs2 = w / 2 ^ 20 % 32 := by
  show w >>> 20 &&& 31 = w / 2 ^ 20 % 32
  rw [Nat.shiftRight_eq_div_pow, and31]

theorem decode_funct7 (w : Nat) : (decode w).funct7 = w / 2 ^ 25 % 128 := by
  show w >>> 25 &&& 127 = w / 2 ^ 25 % 128
  rw [Nat.shiftRight_eq_div_pow, and127]

theorem decode_rd_lt (w : Nat) : (decode w).rd < 32 := by
  rw [decode_rd]; omega

theorem decode_rs1_lt (w : Nat) : (decode w).rs1 < 32 := by
  rw [decode_rs1]; omega

theorem decode_rs2_lt (w : Nat) : (decode w).rs2 < 32 := by
  rw [decode_rs2]; omega

theorem decode_imm_of_I (w : Nat) (h : w % 128 = 0x13 ∨ w % 128 = 0x03) :
    (decode w).imm = signExtend ((w / 2 ^ 20 : Nat) : Int) 12 := by
  have hc : w &&& 0x7f = 0x13 ∨ w &&& 0x7f = 0x03 := by rw [and127]; exact h
  simp only [decode]
  rw [if_pos hc, Nat.shiftRight_eq_div_pow]

theorem decode_imm_of_S (w : Nat) (h : w % 128 = 0x23) :
    (decode w).imm =
      signExtend ((w / 2 ^ 25 % 128 * 32 + w / 2 ^ 7 % 32 : Nat) : Int) 12 := by
  have hc : w &&& 0x7f = 0x23 := by rw [and127]; exact h
  have hnot : ¬(w &&& 0x7f = 0x13 ∨ w &&& 0x7f = 0x03) := by rw [and127]; omega
  simp only [decode]
  rw [if_neg hnot, if_pos hc]
  simp only [Nat.shiftRight_eq_div_pow, and127, and31, Nat.shiftLeft_eq]
  rw [or_eq_add_of_dvd 5 (by omega) (by omega)]

theorem decode_imm_of_B (w : Nat) (h : w % 128 = 0x63) :
    (decode w).imm =
      signExtend ((w / 2 ^ 31 % 2 * 4096 + w / 2 ^ 7 % 2 * 2048 + w / 2 ^ 25 % 64 * 32 +
        w / 2 ^ 8 % 16 * 2 : Nat) : Int) 13 := by
  have hc : w &&& 0x7f = 0x63 := by rw [and127]; exact h
  have hnot : ¬(w &&& 0x7f = 0x13 ∨ w &&& 0x7f = 0x03) := by rw [and127]; omega
  have hnot2 : ¬(w &&& 0x7f = 0x23) := by rw [and127]; omega
  simp only [decode]
  rw [if_neg hnot, if_neg hnot2, if_pos hc]
  simp only [Nat.shiftRight_eq_div_pow, and1, and63, and15, Nat.shiftLeft_eq]
  rw [or_chain4 12 11 5 _ _ _ _ (by omega) (by first | omega) (by omega)
    (by first | omega) (by omega) (by first | omega)]

theorem decode_immType_of_B (w : Nat) (h : w % 128 = 0x63) :
    (decode w).immType = "B" := by
  have hc : w &&& 0x7f = 0x63 := by rw [and127]; exact h
  have hnot : ¬(w &&& 0x7f = 0x13 ∨ w &&& 0x7f = 0x03) := by rw [and127]; omega
  have hnot2 : ¬(w &&& 0x7f = 0x23) := by rw [and127]; omega
  simp only [decode]
  rw [if_neg hnot, if_neg hnot2, if_pos hc]

/-! ### C1: encode/decode round trip -/

/-- C1: for every valid field tuple, decoding the word produced by the
corresponding encoder (`encodeR`, `encodeI`, `encodeS`, `encodeB`) recovers
every field exactly, including the sign of negative immediates.  R-format
words recover all six bit fields for any 7-bit opcode; I-format words (the
source uses opcodes 0x13 and 0x03) recover the sign-extended 12-bit
immediate; S-format (opcode 0x23) and B-format (opcode 0x63, even
immediates) recover their split immediates. -/
theorem C1_roundtrip :
    (∀ f7 r2 r1 f3 rd op : Nat, f7 < 128 → r2 < 32 → r1 < 32 → f3 < 8 → rd < 32 →
      op < 128 →
      (decode (encodeR f7 r2 r1 f3 rd op)).opcode = op ∧
      (decode (encodeR f7 r2 r1 f3 rd op)).rd = rd ∧
      (decode (encodeR f7 r2 r1 f3 rd op)).funct3 = f3 ∧
      (decode (encodeR f7 r2 r1 f3 rd op)).rs1 = r1 ∧
      (decode (encodeR f7 r2 r1 f3 rd op)).rs2 = r2 ∧
      (decode (encodeR f7 r2 r1 f3 rd op)).funct7 = f7)
    ∧ (∀ (imm : Int) (r1 f3 rd op : Nat), op = 0x13 ∨ op = 0x03 →
      -2048 ≤ imm → imm ≤ 2047 → r1 < 32 → f3 < 8 → rd < 32 →
      (decode (encodeI imm r1 f3 rd op)).opcode = op ∧
      (decode (encodeI imm r1 f3 rd op)).rd = rd ∧
      (decode (encodeI imm r1 f3 rd op)).funct3 = f3 ∧
      (decode (encodeI imm r1 f3 rd op)).rs1 = r1 ∧
      (decode (encodeI imm r1 f3 rd op)).imm = imm)
    ∧ (∀ (imm : Int) (r2 r1 f3 : Nat),
      -2048 ≤ imm → imm ≤ 2047 → r2 < 32 → r1 < 32 → f3 < 8 →
      (decode (encodeS imm r2 r1 f3 0x23)).opcode = 0x23 ∧
      (decode (encodeS imm r2 r1 f3 0x23)).funct3 = f3 ∧
      (decode (encodeS imm r2 r1 f3 0x23)).rs1 = r1 ∧
      (decode (encodeS imm r2 r1 f3 0x23)).rs2 = r2 ∧
      (decode (encodeS imm r2 r1 f3 0x23)).imm = imm)
    ∧ (∀ (imm : Int) (r2 r1 f3 : Nat),
      -4096 ≤ imm → imm ≤ 4094 → 2 ∣ imm → r2 < 32 → r1 < 32 → f3 < 8 →
      (decode (encodeB imm r2 r1 f3 0x63)).opcode = 0x63 ∧
      (decode (encodeB imm r2 r1 f3 0x63)).funct3 = f3 ∧
      (decode (encodeB imm r2 r1 f3 0x63)).rs1 = r1 ∧
      (decode (encodeB imm r2 r1 f3 0x63)).rs2 = r2 ∧
      (decode (encodeB imm r2 r1 f3 0x63)).imm = imm) := by
  refine ⟨?_, ?_, ?_, ?_⟩
  · -- R format
    intro f7 r2 r1 f3 rd op h1 h2 h3 h4 h5 h6
    have he := encodeR_eq f7 r2 r1 f3 rd op
    refine ⟨?_, ?_, ?_, ?_, ?_, ?_⟩
    · rw [decode_opcode, he]; omega
    · rw [decode_rd, he]; omega
    · rw [decode_funct3, he]; omega
    · rw [decode_rs1, he]; omega
    · rw [decode_rs2, he]; omega
    · rw [decode_funct7, he]; omega
  · -- I format
    intro imm r1 f3 rd op hop h1 h2 h3 h4 h5
    have he := encodeI_eq imm r1 f3 rd op
    have hu : (u32 imm : Int) = imm % 2 ^ 32 := by unfold u32; omega
    have hopc : encodeI imm r1 f3 rd op % 128 = op := by omega
    refine ⟨?_, ?_, ?_, ?_, ?_⟩
    · rw [decode_opcode]; exact hopc
    · rw [decode_rd, he]; omega
    · rw [decode_funct3, he]; omega
    · rw [decode_rs1, he]; omega
    · rw [decode_imm_of_I _ (by omega)]
      have harg : encodeI imm r1 f3 rd op / 2 ^ 20 = u32 imm % 4096 := by omega
      rw [harg, signExtend_spec _ 12 (by norm_num) (by norm_num) (by omega)]
      split_ifs with hc <;> omega
  · -- S format
    intro imm r2 r1 f3 h1 h2 h3 h4 h5
    have he := encodeS_eq imm r2 r1 f3 0x23
    have hu : (u32 imm : Int) = imm % 2 ^ 32 := by unfold u32; omega
    obtain ⟨qh, hqh⟩ : ∃ t, u32 imm % 4096 / 32 = t := ⟨_, rfl⟩
    obtain ⟨ql, hql⟩ : ∃ t, u32 imm % 4096 % 32 = t := ⟨_, rfl⟩
    rw [hqh, hql] at he
    have hq1 : qh < 128 := by omega
    have hq2 : ql < 32 := by omega
    have hsplit : u32 imm % 4096 = 32 * qh + ql := by omega
    refine ⟨?_, ?_, ?_, ?_, ?_⟩
    · rw [decode_opcode, he]; clear hqh hql hsplit hu h1 h2; omega
    · rw [decode_funct3, he]; clear hqh hql hsplit hu h1 h2; omega
    · rw [decode_rs1, he]; clear hqh hql hsplit hu h1 h2; omega
    · rw [decode_rs2, he]; clear hqh hql hsplit hu h1 h2; omega
    · rw [decode_imm_of_S _ (by clear hqh hql hsplit hu h1 h2; omega)]
      have harg : encodeS imm r2 r1 f3 0x23 / 2 ^ 25 % 128 * 32 +
          encodeS imm r2 r1 f3 0x23 / 2 ^ 7 % 32 = 32 * qh + ql := by
        clear hqh hql hsplit hu h1 h2; omega
      rw [harg, signExtend_spec _ 12 (by norm_num) (by norm_num) (by omega)]
      split_ifs with hc <;> omega
  · -- B format
    intro imm r2 r1 f3 h1 h2 hev h3 h4 h5
    have he := encodeB_eq imm r2 r1 f3 0x63
    have hu : (u32 imm : Int) = imm % 2 ^ 32 := by unfold u32; omega
    obtain ⟨b12, hb12⟩ : ∃ t, u32 imm % 8192 / 4096 = t := ⟨_, rfl⟩
    obtain ⟨b105, hb105⟩ : ∃ t, u32 imm % 8192 / 32 % 64 = t := ⟨_, rfl⟩
    obtain ⟨b41, hb41⟩ : ∃ t, u32 imm % 8192 / 2 % 16 = t := ⟨_, rfl⟩
    obtain ⟨b11, hb11⟩ : ∃ t, u32 imm % 8192 / 2048 % 2 = t := ⟨_, rfl⟩
    rw [hb12, hb105, hb41, hb11] at he
    have hev' : u32 imm % 2 = 0 := by omega
    have hk0 : b12 < 2 := by omega
    have hk1 : b105 < 64 := by omega
    have hk2 : b41 < 16 := by omega
    have hk3 : b11 < 2 := by omega
    have hsplit : u32 imm % 8192 = 4096 * b12 + 2048 * b11 + 32 * b105 + 2 * b41 := by
      omega
    refine ⟨?_, ?_, ?_, ?_, ?_⟩
    · rw [decode_opcode, he]; clear hb12 hb105 hb41 hb11 hsplit hev' hu h1 h2 hev; omega
    · rw [decode_funct3, he]; clear hb12 hb105 hb41 hb11 hsplit hev' hu h1 h2 hev; omega
    · rw [decode_rs1, he]; clear hb12 hb105 hb41 hb11 hsplit hev' hu h1 h2 hev; omega
    · rw [decode_rs2, he]; clear hb12 hb105 hb41 hb11 hsplit hev' hu h1 h2 hev; omega
    · rw [decode_imm_of_B _ (by clear hb12 hb105 hb41 hb11 hsplit hev' hu h1 h2 hev; omega)]
      have harg : encodeB imm r2 r1 f3 0x63 / 2 ^ 31 % 2 * 4096 +
          encodeB imm r2 r1 f3 0x63 / 2 ^ 7 % 2 * 2048 +
          encodeB imm r2 r1 f3 0x63 / 2 ^ 25 % 64 * 32 +
          encodeB imm r2 r1 f3 0x63 / 2 ^ 8 % 16 * 2 =
          4096 * b12 + 2048 * b11 + 32 * b105 + 2 * b41 := by
        clear hb12 hb105 hb41 hb11 hsplit hev' hu h1 h2 hev; omega
      rw [harg]
      clear harg he hb12 hb105 hb41 hb11
      rw [signExtend_spec (4096 * b12 + 2048 * b11 + 32 * b105 + 2 * b41) 13
        (by norm_num) (by norm_num) (by omega)]
      split_ifs with hc <;> omega

/-- Witness for C1: a concrete tuple per format, with negative immediates
for the I/S/B formats. -/
theorem C1_roundtrip_witness :
    (decode (encodeR 0x20 3 2 0x0 1 0x33)).funct7 = 0x20 ∧
    (decode (encodeI (-5) 2 0x0 1 0x13)).imm = -5 ∧
    (decode (encodeS (-8) 2 1 0x2 0x23)).imm = -8 ∧
    (decode (encodeB (-4) 2 1 0x0 0x63)).imm = -4 := by
  refine ⟨?_, ?_, ?_, ?_⟩
  · exact ((C1_roundtrip.1 0x20 3 2 0x0 1 0x33 (by norm_num) (by norm_num) (by norm_num)
      (by norm_num) (by norm_num) (by norm_num)).2.2.2.2.2)
  · exact ((C1_roundtrip.2.1 (-5) 2 0x0 1 0x13 (Or.inl rfl) (by norm_num) (by norm_num)
      (by norm_num) (by norm_num) (by norm_num)).2.2.2.2)
  · exact ((C1_roundtrip.2.2.1 (-8) 2 1 0x2 (by norm_num) (by norm_num) (by norm_num)
      (by norm_num) (by norm_num)).2.2.2.2)
  · exact ((C1_roundtrip.2.2.2 (-4) 2 1 0x0 (by norm_num) (by norm_num) (by norm_num)
      (by norm_num) (by norm_num) (by norm_num)).2.2.2.2)

/-! ### Processor state and the `step` transition (src/src/core/cpu.js) -/

theorem and31_lt (n : Nat) : n &&& 31 < 32 :=
  lt_of_le_of_lt Nat.and_le_right (by norm_num)

/-- Architectural state of `RISCVProcessor` (src/src/core/cpu.js).  The JS
typed arrays (`Uint32Array`) are total maps from indices to cell values;
every write is coerced to an unsigned 32-bit value, as in JS. -/
structure CPUState where
  pc : Nat
  cycle : Nat
  regs : Fin 32 → Nat
  dataMem : Fin 32 → Nat
  instrMem : Fin 256 → Nat
  halted : Bool

/-- The per-step result record returned by `step` (and by
`stepWithStageDelay`).  `null` fields are `Option`s. -/
structure StepResult where
  instr : Nat
  pc_before : Nat
  pc_after : Nat
  decoded : Decoded
  ctrl : Ctrl
  rs1_val : Nat
  rs2_val : Nat
  alu_res : Nat
  alu_b : Int
  mem_data : Nat
  mem_addr : Option Nat
  mem_index : Option Nat
  wb_we : Bool
  wb_rd : Option Nat
  wb_val : Option Nat

/-- `reset()`: restores pc, cycle, halted flag, the seeded register file and
data memory; instruction memory persists. -/
def reset (s : CPUState) : CPUState :=
  { pc := 0
    cycle := 0
    halted := false
    regs := Function.update (Function.update (Function.update (Function.update
      (Function.update (Function.update (Function.update (fun _ => 0)
        0 0x00000000) 1 0x00000001) 2 0x00000002) 3 0xfffffffd) 4 0x00000000)
        5 0x00000005) 7 0x00000007
    dataMem := Function.update (Function.update (Function.update (Function.update
      (fun _ => 0) 0 0x00000005) 1 0x000000af) 2 0x000000d2) 3 0x00000003
    instrMem := s.instrMem }

/-- The constructor `new RISCVProcessor()`: zeroed state followed by
`reset()`. -/
def initState : CPUState := reset ⟨0, 0, fun _ => 0, fun _ => 0, fun _ => 0, false⟩

/-- The register-table edit handler from src/unnamed/part_004
(`renderRegisters`): `parseInt` failure is `none`; a write to register 0 is
coerced to 0; the value is stored with `>>> 0`. -/
def editReg (s : CPUState) (i : Fin 32) (v : Option Int) : CPUState :=
  let val1 : Option Int := if i.val = 0 then some 0 else v
  let val2 : Int := match val1 with
    | none => 0
    | some x => x
  { s with regs := Function.update s.regs i (u32 val2) }

/-- The body of `step()` after the fetch-stage halt checks have passed:
decode, control, register read, ALU, memory access, branch resolution and
write-back, for the fetched word `instr` (already `>>> 0`). -/
def stepExec (s : CPUState) (instr : Nat) : CPUState × StepResult :=
  let pc_before := s.pc
  let d := decode instr
  let ctrl := controlUnit d
  let a : Int := i32 (s.regs ⟨d.rs1, decode_rs1_lt instr⟩)
  let breg : Int := i32 (s.regs ⟨d.rs2, decode_rs2_lt instr⟩)
  let rs1_val := u32 a
  let rs2_val := u32 (toInt32 breg)
  let alu_b : Int := if ctrl.alu_src ≠ 0 then d.imm else breg
  let alu_res := alu a alu_b ctrl.alu_op
  let addrIndex := (alu_res >>> 2) &&& 0x1f
  -- MEM phase: (new data memory, memData, mem_addr, mem_index)
  let mem : (Fin 32 → Nat) × Nat × Option Nat × Option Nat :=
    if ctrl.wem ≠ 0 then
      (Function.update s.dataMem ⟨addrIndex, and31_lt _⟩ (u32 breg), 0,
        some alu_res, some addrIndex)
    else if d.opcode = 0x03 then
      (s.dataMem, s.dataMem ⟨addrIndex, and31_lt _⟩ % 2 ^ 32,
        some alu_res, some addrIndex)
    else (s.dataMem, 0, none, none)
  -- BRANCH
  let pc_next : Int :=
    if ctrl.branch ≠ 0 ∧ ((ctrl.branch_ne = 0 ∧ alu_res = 1) ∨
        (ctrl.branch_ne ≠ 0 ∧ alu_res = 0)) then
      toInt32 ((s.pc : Int) + toInt32 d.imm)
    else toInt32 ((s.pc : Int) + 4)
  -- WB: (new register file, wb_we, wb_rd, wb_val)
  let wb : (Fin 32 → Nat) × Bool × Option Nat × Option Nat :=
    if ctrl.wem = 0 ∧ d.opcode ≠ 0x63 ∧ d.rd ≠ 0 then
      let value := if d.opcode = 0x03 ∧ ctrl.alu2reg ≠ 0 then mem.2.1 else alu_res
      (Function.update s.regs ⟨d.rd, decode_rd_lt instr⟩ (value % 2 ^ 32), true,
        some d.rd, some (value % 2 ^ 32))
    else (s.regs, false, none, none)
  ({ pc := u32 pc_next, cycle := s.cycle + 1, regs := wb.1, dataMem := mem.1,
     instrMem := s.instrMem, halted := s.halted },
   { instr, pc_before, pc_after := u32 pc_next, decoded := d, ctrl, rs1_val,
     rs2_val, alu_res, alu_b, mem_data := mem.2.1, mem_addr := mem.2.2.1,
     mem_index := mem.2.2.2, wb_we := wb.2.1, wb_rd := wb.2.2.1,
     wb_val := wb.2.2.2 })

/-- `step()` from src/src/core/cpu.js: one fetch/decode/execute/memory/
write-back cycle.  The `onStageUpdate` callback performs no state change and
is omitted.  Returns the successor state together with the result record
(`none` models the `null` returns). -/
def step (s : CPUState) : CPUState × Option StepResult :=
  if s.halted then (s, none) else
  let wordIndex := s.pc >>> 2
  if h : 256 ≤ wordIndex then ({ s with halted := true }, none) else
  let instr := s.instrMem ⟨wordIndex, by omega⟩ % 2 ^ 32
  if instr = 0 ∨ instr = 0x00000073 ∨ instr = 0x00100073 then
    ({ s with halted := true }, none)
  else
    let r := stepExec s instr
    (r.1, some r.2)

/-- `stepWithStageDelay()` from src/src/core/cpu.js: the phase-by-phase
asynchronous variant, transcribed separately from `step`.  The per-stage
snapshot record and the awaited delays only feed the caller-supplied
callback and change no architectural state, so they are omitted; the
architectural computation is transcribed in the source's order (bounds
check, fetch, halt check, decode/read, execute, memory, branch,
write-back). -/
def stepWithStageDelay (s : CPUState) : CPUState × Option StepResult :=
  if s.halted then (s, none) else
  let wordIndex := s.pc >>> 2
  if h : 256 ≤ wordIndex then ({ s with halted := true }, none) else
  let instr := s.instrMem ⟨wordIndex, by omega⟩ % 2 ^ 32
  if instr = 0 ∨ instr = 0x00000073 ∨ instr = 0x00100073 then
    ({ s with halted := true }, none)
  else
    let pc_before := s.pc
    let d := decode instr
    let ctrl := controlUnit d
    let a : Int := i32 (s.regs ⟨d.rs1, decode_rs1_lt instr⟩)
    let breg : Int := i32 (s.regs ⟨d.rs2, decode_rs2_lt instr⟩)
    let rs1_val := u32 a
    let rs2_val := u32 (toInt32 breg)
    let alu_b : Int := if ctrl.alu_src ≠ 0 then d.imm else breg
    let alu_res := alu a alu_b ctrl.alu_op
    let addrIndex := (alu_res >>> 2) &&& 0x1f
    let mem : (Fin 32 → Nat) × Nat × Option Nat × Option Nat :=
      if ctrl.wem ≠ 0 then
        (Function.update s.dataMem ⟨addrIndex, and31_lt _⟩ (u32 breg), 0,
          some alu_res, some addrIndex)
      else if d.opcode = 0x03 then
        (s.dataMem, s.dataMem ⟨addrIndex, and31_lt _⟩ % 2 ^ 32,
          some alu_res, some addrIndex)
      else (s.dataMem, 0, none, none)
    let pc_next : Int :=
      if ctrl.branch ≠ 0 ∧ ((ctrl.branch_ne = 0 ∧ alu_res = 1) ∨
          (ctrl.branch_ne ≠ 0 ∧ alu_res = 0)) then
        toInt32 ((s.pc : Int) + toInt32 d.imm)
      else toInt32 ((s.pc : Int) + 4)
    let wb : (Fin 32 → Nat) × Bool × Option Nat × Option Nat :=
      if ctrl.wem = 0 ∧ d.opcode ≠ 0x63 ∧ d.rd ≠ 0 then
        let value := if d.opcode = 0x03 ∧ ctrl.alu2reg ≠ 0 then mem.2.1 else alu_res
        (Function.update s.regs ⟨d.rd, decode_rd_lt instr⟩ (value % 2 ^ 32), true,
          some d.rd, some (value % 2 ^ 32))
      else (s.regs, false, none, none)
    ({ pc := u32 pc_next, cycle := s.cycle + 1, regs := wb.1, dataMem := mem.1,
       instrMem := s.instrMem, halted := s.halted },
     some { instr, pc_before, pc_after := u32 pc_next, decoded := d, ctrl, rs1_val,
            rs2_val, alu_res, alu_b, mem_data := mem.2.1, mem_addr := mem.2.2.1,
            mem_index := mem.2.2.2, wb_we := wb.2.1, wb_rd := wb.2.2.1,
            wb_val := wb.2.2.2 })

/-- C5: the synchronous `step` and the phase-by-phase `stepWithStageDelay`
produce bit-identical final architectural state and the same result record
from every starting state; they differ only in the suspension points exposed
to the caller. -/
theorem C5_step_equiv : ∀ s : CPUState, stepWithStageDelay s = step s :=
  fun _ => rfl

theorem stepExec_reg0 (s : CPUState) (instr : Nat) (h : s.regs 0 = 0) :
    (stepExec s instr).1.regs 0 = 0 := by
  unfold stepExec
  dsimp only
  by_cases hcond : (controlUnit (decode instr)).wem = 0 ∧
      (decode instr).opcode ≠ 0x63 ∧ (decode instr).rd ≠ 0
  · rw [if_pos hcond]
    have hne : (0 : Fin 32) ≠ (⟨(decode instr).rd, decode_rd_lt instr⟩ : Fin 32) := by
      intro he
      apply hcond.2.2
      have hv := congrArg Fin.val he
      rw [show ((0 : Fin 32)).val = 0 from rfl] at hv
      exact hv.symm
    dsimp only
    rw [Function.update_noteq hne]
    exact h
  · rw [if_neg hcond]
    exact h

theorem step_reg0 (s : CPUState) (h : s.regs 0 = 0) : (step s).1.regs 0 = 0 := by
  unfold step
  dsimp only
  split
  · exact h
  · split
    · exact h
    · split
      · exact h
      · exact stepExec_reg0 _ _ h

theorem editReg_reg0 (s : CPUState) (i : Fin 32) (v : Option Int)
    (h : s.regs 0 = 0) : (editReg s i v).regs 0 = 0 := by
  unfold editReg
  dsimp only
  by_cases hi : i = (0 : Fin 32)
  · subst hi
    simp [Function.update_same, u32]
  · rw [Function.update_noteq (Ne.symm hi)]
    exact h

theorem reset_reg0 (s : CPUState) : (reset s).regs 0 = 0 := rfl

/-- External operations on a core: a `step()` call, an operator register
edit, or a `reset()`. -/
inductive ExtOp where
  | doStep : ExtOp
  | doEdit (i : Fin 32) (v : Option Int) : ExtOp
  | doReset : ExtOp

def applyOp (s : CPUState) : ExtOp → CPUState
  | .doStep => (step s).1
  | .doEdit i v => editReg s i v
  | .doReset => reset s

def runOps (s : CPUState) : List ExtOp → CPUState
  | [] => s
  | o :: rest => runOps (applyOp s o) rest

/-- C3: register 0 reads 0 at every point: starting from a freshly
constructed or reset processor, after any sequence of `step()` calls,
external register edits (which coerce writes to register 0 to 0), and
resets, `regs[0] = 0`. -/
theorem C3_reg_zero (s0 : CPUState) (ops : List ExtOp) :
    (runOps (reset s0) ops).regs 0 = 0 := by
  have hinv : ∀ (l : List ExtOp) (s : CPUState), s.regs 0 = 0 →
      (runOps s l).regs 0 = 0 := by
    intro l
    induction l with
    | nil => exact fun s hs => hs
    | cons o rest ih =>
      intro s hs
      cases o with
      | doStep => exact ih _ (step_reg0 s hs)
      | doEdit i v => exact ih _ (editReg_reg0 s i v hs)
      | doReset => exact ih _ (reset_reg0 _)
  exact hinv ops _ (reset_reg0 s0)

/-- C4: a fetched instruction word of 0, 0x00000073 or 0x00100073 makes
`step()` set the halted flag and return `null` with no other change to the
state; and `step()` on an already-halted core returns `null` leaving the
state untouched. -/
theorem C4_halt (s : CPUState) :
    (s.halted = true → step s = (s, none))
    ∧ (s.halted = false → ∀ hix : s.pc >>> 2 < 256,
        (s.instrMem ⟨s.pc >>> 2, hix⟩ % 2 ^ 32 = 0 ∨
         s.instrMem ⟨s.pc >>> 2, hix⟩ % 2 ^ 32 = 0x00000073 ∨
         s.instrMem ⟨s.pc >>> 2, hix⟩ % 2 ^ 32 = 0x00100073) →
        step s = ({ s with halted := true }, none)) := by
  constructor
  · intro hh
    unfold step
    rw [if_pos hh]
  · intro hh hix hin
    unfold step
    rw [if_neg (by rw [hh]; simp)]
    dsimp only
    rw [dif_neg (by omega : ¬256 ≤ s.pc >>> 2)]
    dsimp only
    exact if_pos hin

/-- Witness for C4: a freshly constructed core has instruction word 0 at
pc 0, so one step halts it; stepping the halted core is a no-op. -/
theorem C4_halt_witness :
    step initState = ({ initState with halted := true }, none) ∧
    step { initState with halted := true } = ({ initState with halted := true }, none) := by
  constructor
  · exact (C4_halt initState).2 rfl (by decide) (Or.inl rfl)
  · exact (C4_halt { initState with halted := true }).1 rfl

theorem controlUnit_wem_iff (d : Decoded) : (controlUnit d).wem = 1 ↔ d.opcode = 0x23 := by
  unfold controlUnit
  by_cases h1 : d.opcode = 0x33 <;> by_cases h2 : d.opcode = 0x13 <;>
    by_cases h3 : d.opcode = 0x03 <;> by_cases h4 : d.opcode = 0x23 <;>
    by_cases h5 : d.opcode = 0x63 <;>
    simp [h1, h2, h3, h4, h5]

theorem stepExec_instrMem (s : CPUState) (instr : Nat) :
    (stepExec s instr).1.instrMem = s.instrMem := rfl

theorem stepExec_decoded (s : CPUState) (instr : Nat) :
    (stepExec s instr).2.decoded = decode instr := rfl

theorem stepExec_ctrl (s : CPUState) (instr : Nat) :
    (stepExec s instr).2.ctrl = controlUnit (decode instr) := rfl

theorem stepExec_dataMem_wem (s : CPUState) (instr : Nat)
    (hw : (controlUnit (decode instr)).wem ≠ 0) :
    (stepExec s instr).1.dataMem = Function.update s.dataMem
      ⟨((stepExec s instr).2.alu_res >>> 2) &&& 0x1f, and31_lt _⟩
      (u32 (i32 (s.regs ⟨(decode instr).rs2, decode_rs2_lt instr⟩))) := by
  unfold stepExec
  dsimp only
  rw [if_pos hw]

theorem stepExec_regs_wem (s : CPUState) (instr : Nat)
    (hw : (controlUnit (decode instr)).wem ≠ 0) :
    (stepExec s instr).1.regs = s.regs := by
  unfold stepExec
  dsimp only
  rw [if_neg (show ¬((controlUnit (decode instr)).wem = 0 ∧
    (decode instr).opcode ≠ 0x63 ∧ (decode instr).rd ≠ 0) from fun hc => hw hc.1)]

theorem stepExec_dataMem_nowem (s : CPUState) (instr : Nat)
    (hw : (controlUnit (decode instr)).wem = 0) :
    (stepExec s instr).1.dataMem = s.dataMem := by
  unfold stepExec
  dsimp only
  rw [if_neg (show ¬(controlUnit (decode instr)).wem ≠ 0 by simp [hw])]
  by_cases hl : (decode instr).opcode = 0x03
  · rw [if_pos hl]
  · rw [if_neg hl]

theorem stepExec_regs_wb (s : CPUState) (instr : Nat)
    (hc : (controlUnit (decode instr)).wem = 0 ∧ (decode instr).opcode ≠ 0x63 ∧
      (decode instr).rd ≠ 0) :
    ∀ j : Fin 32, j.val ≠ (decode instr).rd → (stepExec s instr).1.regs j = s.regs j := by
  intro j hj
  unfold stepExec
  dsimp only
  rw [if_pos hc]
  dsimp only
  rw [Function.update_noteq (show j ≠ _ from fun he => hj (congrArg Fin.val he))]

theorem stepExec_regs_nowb (s : CPUState) (instr : Nat)
    (hc : ¬((controlUnit (decode instr)).wem = 0 ∧ (decode instr).opcode ≠ 0x63 ∧
      (decode instr).rd ≠ 0)) :
    (stepExec s instr).1.regs = s.regs := by
  unfold stepExec
  dsimp only
  rw [if_neg hc]

/-- C10: in every `step()` call that executes an instruction, instruction
memory is never modified; data memory is modified only under the store
control signal (`wem`, which holds exactly for opcode 0x23), and then only
the word at index `(alu_res >>> 2) & 0x1F`, which receives the rs2 register
value; the register file is modified only under the write-back condition
(not a store, not a branch, `rd ≠ 0`), and then only at register `rd`. -/
theorem C10_frame (s s' : CPUState) (r : StepResult)
    (hwf : ∀ i, s.regs i < 2 ^ 32) (hstep : step s = (s', some r)) :
    s'.instrMem = s.instrMem
    ∧ (r.ctrl.wem = 1 ↔ r.decoded.opcode = 0x23)
    ∧ (r.ctrl.wem ≠ 0 →
        s'.regs = s.regs ∧
        ∃ hr : r.decoded.rs2 < 32,
          s'.dataMem = Function.update s.dataMem
            ⟨(r.alu_res >>> 2) &&& 0x1f, and31_lt _⟩ (s.regs ⟨r.decoded.rs2, hr⟩))
    ∧ (r.ctrl.wem = 0 → s'.dataMem = s.dataMem)
    ∧ (r.ctrl.wem = 0 → r.decoded.opcode ≠ 0x63 → r.decoded.rd ≠ 0 →
        ∀ j : Fin 32, j.val ≠ r.decoded.rd → s'.regs j = s.regs j)
    ∧ (¬(r.ctrl.wem = 0 ∧ r.decoded.opcode ≠ 0x63 ∧ r.decoded.rd ≠ 0) →
        s'.regs = s.regs) := by
  unfold step at hstep
  dsimp only at hstep
  split at hstep
  · simp at hstep
  · split at hstep
    · simp at hstep
    · split at hstep
      · simp at hstep
      · injection hstep with hs1 hs2
        injection hs2 with hs2
        subst hs1
        subst hs2
        refine ⟨stepExec_instrMem _ _, ?_, ?_, ?_, ?_, ?_⟩
        · exact controlUnit_wem_iff _
        · intro hw
          refine ⟨stepExec_regs_wem _ _ hw, decode_rs2_lt _, ?_⟩
          rw [stepExec_dataMem_wem _ _ hw, u32_i32, Nat.mod_eq_of_lt (hwf _)]
          rfl
        · intro hw
          exact stepExec_dataMem_nowem _ _ hw
        · intro hw hop hrd
          exact stepExec_regs_wb _ _ ⟨hw, hop, hrd⟩
        · intro hc
          exact stepExec_regs_nowb _ _ hc

/-- A reachable state with a single `sw x1, 0(x0)` instruction loaded. -/
def storeDemoState : CPUState :=
  { initState with instrMem := Function.update initState.instrMem 0 0x00102023 }

/-- Witness for C10: executing `sw x1, 0(x0)` writes register x1 (value 1)
to data-memory word 0 and leaves the register file unchanged. -/
theorem C10_frame_witness :
    (step storeDemoState).1.dataMem ⟨0, by norm_num⟩ = 1 ∧
    (step storeDemoState).1.regs = storeDemoState.regs := by
  have h := C10_frame storeDemoState (step storeDemoState).1
    ⟨0x00102023, 0, 4, ⟨0x23, 0, 2, 0, 1, 0, 0, "S"⟩, ⟨1, 0, 1, 0, 0, 0⟩, 0, 1, 0, 0,
      0, some 0, some 0, false, none, none⟩
    (by decide) rfl
  obtain ⟨hregs, hr, hdm⟩ := h.2.2.1 (by decide)
  constructor
  · rw [hdm]
    rfl
  · exact hregs

/-! ### JS string primitives over character lists

Lines and tokens are `List Char`; the JS string operations used by the
sources (`trim`, `split`, `replace`, `startsWith`, `endsWith`, `parseInt`)
are modeled structurally so that everything evaluates by reduction. -/

/-- JS `String.prototype.trim` (ASCII whitespace suffices for this code). -/
def jsTrim (cs : List Char) : List Char :=
  ((cs.dropWhile Char.isWhitespace).reverse.dropWhile Char.isWhitespace).reverse

/-- `String.prototype.split(/\s+/)`: maximal whitespace runs separate the
pieces; leading/trailing runs produce an empty first/last piece, as in JS.
The `Bool` is true while skipping a whitespace run just after a piece. -/
def jsSplitWsAux : List Char → Bool → List Char → List (List Char)
  | [], true, _ => [[]]
  | [], false, acc => [acc.reverse]
  | c :: cs, true, _ =>
    if c.isWhitespace then jsSplitWsAux cs true []
    else jsSplitWsAux cs false [c]
  | c :: cs, false, acc =>
    if c.isWhitespace then acc.reverse :: jsSplitWsAux cs true []
    else jsSplitWsAux cs false (c :: acc)

def jsSplitWs (cs : List Char) : List (List Char) := jsSplitWsAux cs false []

/-- Remove the first occurrence of a character (JS
`String.prototype.replace` with a single-character string pattern). -/
def removeFirst (ch : Char) : List Char → List Char
  | [] => []
  | c :: cs => if c = ch then cs else c :: removeFirst ch cs

def isHexDigitChar (c : Char) : Bool :=
  c.isDigit || ('a' ≤ c && c ≤ 'f') || ('A' ≤ c && c ≤ 'F')

def hexDigitVal (c : Char) : Nat :=
  if c.isDigit then c.toNat - '0'.toNat
  else if 'a' ≤ c && c ≤ 'f' then c.toNat - 'a'.toNat + 10
  else c.toNat - 'A'.toNat + 10

def natOfDigits (ds : List Char) : Nat :=
  ds.foldl (fun n c => n * 10 + (c.toNat - '0'.toNat)) 0

def natOfHexDigits (ds : List Char) : Nat :=
  ds.foldl (fun n c => n * 16 + hexDigitVal c) 0

/-- JS `parseInt(t)` without a radix on an already-trimmed token: optional
sign, auto-detected `0x` prefix, longest digit prefix; `none` is `NaN`. -/
def jsParseIntNatAuto (t : List Char) : Option Nat :=
  match t with
  | '0' :: 'x' :: rest =>
    let ds := rest.takeWhile isHexDigitChar
    if ds.isEmpty then none else some (natOfHexDigits ds)
  | '0' :: 'X' :: rest =>
    let ds := rest.takeWhile isHexDigitChar
    if ds.isEmpty then none else some (natOfHexDigits ds)
  | _ =>
    let ds := t.takeWhile Char.isDigit
    if ds.isEmpty then none else some (natOfDigits ds)

def jsParseInt (t : List Char) : Option Int :=
  match t with
  | '-' :: rest => (jsParseIntNatAuto rest).map (fun n => -(n : Int))
  | '+' :: rest => (jsParseIntNatAuto rest).map (fun n => (n : Int))
  | _ => (jsParseIntNatAuto t).map (fun n => (n : Int))

/-- JS `parseInt(t, 10)`: optional sign, longest decimal digit prefix. -/
def jsParseIntDec (t : List Char) : Option Int :=
  match t with
  | '-' :: rest =>
    let ds := rest.takeWhile Char.isDigit
    if ds.isEmpty then none else some (-(natOfDigits ds : Int))
  | '+' :: rest =>
    let ds := rest.takeWhile Char.isDigit
    if ds.isEmpty then none else some ((natOfDigits ds : Int))
  | _ =>
    let ds := t.takeWhile Char.isDigit
    if ds.isEmpty then none else some ((natOfDigits ds : Int))

/-- JS `parseInt(t, 16)`: optional sign, optional `0x` prefix, longest hex
digit prefix. -/
def jsParseIntHex (t : List Char) : Option Int :=
  let core : List Char → Option Nat := fun u =>
    let u' := match u with
      | '0' :: 'x' :: rest => rest
      | '0' :: 'X' :: rest => rest
      | _ => u
    let ds := u'.takeWhile isHexDigitChar
    if ds.isEmpty then none else some (natOfHexDigits ds)
  match t with
  | '-' :: rest => (core rest).map (fun n => -(n : Int))
  | '+' :: rest => (core rest).map (fun n => (n : Int))
  | _ => (core t).map (fun n => (n : Int))

/-! ### src/src/core/cpu.js `assembleLine` and `loadProgram` -/

/-- The exceptions thrown by `assembleLine` (and the `TypeError` a missing
token would raise in JS; missing tokens are modeled as the string
`"undefined"`, which is what JS coerces `undefined` to in the regex tests,
and which fails the same register/immediate tests). -/
inductive CpuAsmErr where
  | invalidReg (tok : List Char)
  | regOutOfRange (tok : List Char)
  | badLw (line : List Char)
  | badSw (line : List Char)
  | unsupported (line : List Char)
  deriving DecidableEq, Repr

/-- `assembleLine`'s `reg` closure: the regex `/^x(\d{1,2})$/i` followed by
a range check. -/
def cpuReg (tok : List Char) : Except CpuAsmErr Nat :=
  match tok with
  | c :: rest =>
    if (c = 'x' ∨ c = 'X') ∧ rest ≠ [] ∧ rest.length ≤ 2 ∧ rest.all Char.isDigit then
      let n := natOfDigits rest
      if n > 31 then .error (.regOutOfRange tok) else .ok n
    else .error (.invalidReg tok)
  | [] => .error (.invalidReg tok)

/-- `assembleLine`'s `immVal` closure: hex tokens via `parseInt(t,16)|0`,
anything else via `parseInt(t,10)|0` (`NaN|0 = 0`). -/
def isHexTok (t : List Char) : Bool :=
  match t with
  | '0' :: 'x' :: rest => !rest.isEmpty && rest.all isHexDigitChar
  | _ => false

def immVal (t : List Char) : Int :=
  if isHexTok t then toInt32 ((jsParseIntHex t).getD 0)
  else toInt32 ((jsParseIntDec t).getD 0)

def isDecTok (t : List Char) : Bool :=
  match t with
  | '-' :: ds => !ds.isEmpty && ds.all Char.isDigit
  | ds => !ds.isEmpty && ds.all Char.isDigit

/-- The load/store addressing regex
`/^(-?\d+|0x[0-9a-fA-F]+)\((x\d{1,2})\)$/`: returns the immediate token and
the register token. -/
def lwMatch (t : List Char) : Option (List Char × List Char) :=
  let immPart := t.takeWhile (fun c => c ≠ '(')
  match t.dropWhile (fun c => c ≠ '(') with
  | '(' :: mid =>
    match mid.reverse with
    | ')' :: revInner =>
      let r := revInner.reverse
      let rOk := match r with
        | 'x' :: ds => !ds.isEmpty && ds.length ≤ 2 && ds.all Char.isDigit
        | _ => false
      if (isDecTok immPart || isHexTok immPart) && rOk then some (immPart, r)
      else none
    | _ => none
  | _ => none

/-- From src/src/core/cpu.js: `assembleLine(line, pc)`.  Annotations: the
comment stripping takes the prefix before the first `#` or `;`; tokens come
from replacing commas with spaces, splitting on whitespace and dropping
empty strings; the mnemonic is lower-cased.  Missing operand tokens are
modeled as the JS string `"undefined"`. -/
def assembleLine (line : List Char) (_pc : Nat) : Except CpuAsmErr (Option Nat) :=
  let clean := jsTrim (line.takeWhile (fun c => c ≠ '#' ∧ c ≠ ';'))
  if clean = [] then .ok none
  else
    let parts := (jsSplitWs (clean.map (fun c => if c = ',' then ' ' else c))).filter
      (fun t => !t.isEmpty)
    let tok := fun i => parts.getD i ("undefined".toList)
    let mn := (tok 0).map Char.toLower
    if mn = "add".toList ∨ mn = "sub".toList ∨ mn = "and".toList ∨ mn = "or".toList ∨
        mn = "xor".toList then do
      let rd ← cpuReg (tok 1)
      let rs1 ← cpuReg (tok 2)
      let rs2 ← cpuReg (tok 3)
      let f : Nat × Nat :=
        if mn = "add".toList then (0x00, 0x0)
        else if mn = "sub".toList then (0x20, 0x0)
        else if mn = "and".toList then (0x00, 0x7)
        else if mn = "or".toList then (0x00, 0x6)
        else (0x00, 0x4)
      .ok (some (encodeR f.1 rs2 rs1 f.2 rd 0x33))
    else if mn = "addi".toList ∨ mn = "andi".toList ∨ mn = "ori".toList ∨
        mn = "xori".toList then do
      let rd ← cpuReg (tok 1)
      let rs1 ← cpuReg (tok 2)
      let imm := immVal (tok 3)
      let funct3 : Nat :=
        if mn = "andi".toList then 0x7
        else if mn = "ori".toList then 0x6
        else if mn = "xori".toList then 0x4
        else 0x0
      .ok (some (encodeI imm rs1 funct3 rd 0x13))
    else if mn = "lw".toList then do
      let rd ← cpuReg (tok 1)
      match lwMatch (tok 2) with
      | none => .error (.badLw clean)
      | some (immTok, regTok) => do
        let imm := immVal immTok
        let rs1 ← cpuReg regTok
        .ok (some (encodeI imm rs1 0x2 rd 0x03))
    else if mn = "sw".toList then do
      let rs2 ← cpuReg (tok 1)
      match lwMatch (tok 2) with
      | none => .error (.badSw clean)
      | some (immTok, regTok) => do
        let imm := immVal immTok
        let rs1 ← cpuReg regTok
        .ok (some (encodeS imm rs2 rs1 0x2 0x23))
    else if mn = "beq".toList ∨ mn = "bne".toList then do
      let rs1 ← cpuReg (tok 1)
      let rs2 ← cpuReg (tok 2)
      let imm := immVal (tok 3)
      let funct3 : Nat := if mn = "bne".toList then 0x1 else 0x0
      .ok (some (encodeB imm rs2 rs1 funct3 0x63))
    else if mn = "lui".toList then do
      let rd ← cpuReg (tok 1)
      let imm := immVal (tok 2)
      .ok (some (encodeU imm rd 0x37))
    else if mn = "jal".toList then do
      let rd ← cpuReg (tok 1)
      let imm := immVal (tok 2)
      .ok (some (encodeJ imm rd 0x6f))
    else .error (.unsupported line)

/-- The line loop of `loadProgram`: pure-hex lines are parsed with
`parseInt(line, 16)`, any other line goes through `assembleLine`; a
non-null, non-NaN value is stored (`>>> 0`) at `instrMem[addr++]` (JS typed
arrays ignore out-of-range writes but `addr` still advances). -/
def loadLoop : CPUState → Nat → List (List Char) → Except CpuAsmErr (CPUState × Nat)
  | s, addr, [] => .ok (s, addr)
  | s, addr, line :: rest =>
    if line.all isHexDigitChar then
      let value := natOfHexDigits line
      let s' := if h : addr < 256 then
          { s with instrMem := Function.update s.instrMem ⟨addr, h⟩ (value % 2 ^ 32) }
        else s
      loadLoop s' (addr + 1) rest
    else
      match assembleLine line (addr * 4) with
      | .error e => .error e
      | .ok none => loadLoop s addr rest
      | .ok (some value) =>
        let s' := if h : addr < 256 then
            { s with instrMem := Function.update s.instrMem ⟨addr, h⟩ (value % 2 ^ 32) }
          else s
        loadLoop s' (addr + 1) rest

/-- From src/src/core/cpu.js: `loadProgram(sourceCode)`.  The source text is
given already split at line breaks (`split(/\r?\n/)`); lines are trimmed and
blank/comment lines dropped; instruction memory is cleared first; a final
`reset()` restores the architectural state.  On an `assembleLine` exception
the JS mutations are abandoned mid-way and the exception propagates; the
model returns the error. -/
def loadProgram (s : CPUState) (sourceCode : List (List Char)) :
    Except CpuAsmErr (CPUState × Nat) :=
  let lines := (sourceCode.map jsTrim).filter
    (fun l => !l.isEmpty && !("#".toList.isPrefixOf l) && !("//".toList.isPrefixOf l))
  (loadLoop { s with instrMem := fun _ => 0 } 0 lines).map
    (fun p => (reset p.1, p.2))

/-! ### C8: program counter alignment -/

theorem controlUnit_branch_opcode (d : Decoded) (h : (controlUnit d).branch ≠ 0) :
    d.opcode = 0x63 := by
  by_cases h1 : d.opcode = 0x33 <;> by_cases h2 : d.opcode = 0x13 <;>
    by_cases h3 : d.opcode = 0x03 <;> by_cases h4 : d.opcode = 0x23 <;>
    by_cases h5 : d.opcode = 0x63 <;>
    first
      | assumption
      | (exfalso; apply h; unfold controlUnit; simp [h1, h2, h3, h4, h5])

/-- B-format immediates decode to even values (bit 0 is implicit zero). -/
theorem decode_imm_B_even (w : Nat) (h : w % 128 = 0x63) :
    (decode w).imm % 2 = 0 := by
  rw [decode_imm_of_B w h]
  rw [signExtend_spec _ 13 (by norm_num) (by norm_num) (by omega)]
  split_ifs with hc <;> omega

theorem editReg_pc (s : CPUState) (i : Fin 32) (v : Option Int) :
    (editReg s i v).pc = s.pc := rfl

theorem loadProgram_pc (s : CPUState) (lines : List (List Char))
    (pr : CPUState × Nat) (h : loadProgram s lines = .ok pr) : pr.1.pc = 0 := by
  unfold loadProgram at h
  dsimp only at h
  rcases hx : loadLoop { s with instrMem := fun _ => 0 } 0 ((lines.map jsTrim).filter
      (fun l => !l.isEmpty && !("#".toList.isPrefixOf l) &&
        !("//".toList.isPrefixOf l))) with e | p
  · rw [hx] at h
    simp [Except.map] at h
  · rw [hx] at h
    simp only [Except.map, Except.ok.injEq] at h
    rw [← h]
    rfl

theorem stepExec_pc_even (s : CPUState) (instr : Nat) (h : s.pc % 2 = 0) :
    (stepExec s instr).1.pc % 2 = 0 := by
  unfold stepExec
  dsimp only
  by_cases hb : (controlUnit (decode instr)).branch ≠ 0 ∧
      (((controlUnit (decode instr)).branch_ne = 0 ∧
        alu (i32 (s.regs ⟨(decode instr).rs1, decode_rs1_lt instr⟩))
          (if (controlUnit (decode instr)).alu_src ≠ 0 then (decode instr).imm
            else i32 (s.regs ⟨(decode instr).rs2, decode_rs2_lt instr⟩))
          (controlUnit (decode instr)).alu_op = 1) ∨
       ((controlUnit (decode instr)).branch_ne ≠ 0 ∧
        alu (i32 (s.regs ⟨(decode instr).rs1, decode_rs1_lt instr⟩))
          (if (controlUnit (decode instr)).alu_src ≠ 0 then (decode instr).imm
            else i32 (s.regs ⟨(decode instr).rs2, decode_rs2_lt instr⟩))
          (controlUnit (decode instr)).alu_op = 0))
  · rw [if_pos hb]
    have hop : (decode instr).opcode = 0x63 := controlUnit_branch_opcode _ hb.1
    have heven : (decode instr).imm % 2 = 0 := by
      apply decode_imm_B_even
      rw [← decode_opcode]
      exact hop
    have h1 := toInt32_emod ((s.pc : Int) + toInt32 (decode instr).imm)
    have h2 := toInt32_emod (decode instr).imm
    unfold u32
    omega
  · rw [if_neg hb]
    have h1 := toInt32_emod ((s.pc : Int) + 4)
    unfold u32
    omega

theorem step_pc_even (s : CPUState) (h : s.pc % 2 = 0) : (step s).1.pc % 2 = 0 := by
  unfold step
  dsimp only
  split
  · exact h
  · split
    · exact h
    · split
      · exact h
      · exact stepExec_pc_even _ _ h

/-- States reachable from a freshly constructed core through program loads
(raw hex or assembly), steps, operator register edits, and resets. -/
inductive ReachableState : CPUState → Prop where
  | init : ReachableState initState
  | step {s : CPUState} : ReachableState s → ReachableState (step s).1
  | edit {s : CPUState} (i : Fin 32) (v : Option Int) :
      ReachableState s → ReachableState (editReg s i v)
  | reset {s : CPUState} : ReachableState s → ReachableState (reset s)
  | load {s s' : CPUState} {lines : List (List Char)} {n : Nat} :
      ReachableState s → loadProgram s lines = .ok (s', n) → ReachableState s'

/-- C8 (amended): the program counter is always even in every reachable
state; it need not be a multiple of 4, because a raw-hex-loaded B-format
word may carry an immediate that is an odd multiple of 2 (see the
counterexample). -/
theorem C8_pc_even (s : CPUState) (h : ReachableState s) : s.pc % 2 = 0 := by
  induction h with
  | init => rfl
  | step _ ih => exact step_pc_even _ ih
  | edit i v _ ih => rw [editReg_pc]; exact ih
  | reset _ _ => rfl
  | load _ hload _ =>
    have h0 := loadProgram_pc _ _ _ hload
    dsimp only at h0
    rw [h0]

/-- Counterexample for C8 as stated: loading the raw hex word `00000163`
(`beq x0, x0` with B-immediate 2) and stepping once leaves `pc = 2`, which
is not a multiple of 4. -/
theorem C8_counterexample :
    (loadProgram initState ["00000163".toList]).map (fun p => (step p.1).1.pc) =
      .ok 2 ∧ ¬(2 % 4 = 0) :=
  ⟨rfl, by decide⟩

/-- Witness for C8 (amended): the same reachable state has an even pc. -/
theorem C8_pc_even_witness :
    (step (((loadProgram initState ["00000163".toList]).toOption.getD
      (initState, 0)).1)).1.pc % 2 = 0 :=
  C8_pc_even _ (ReachableState.step
    (@ReachableState.load initState
      (((loadProgram initState ["00000163".toList]).toOption.getD (initState, 0)).1)
      ["00000163".toList]
      (((loadProgram initState ["00000163".toList]).toOption.getD (initState, 0)).2)
      ReachableState.init rfl))

/-! ### The two-pass assembler from src/unnamed/part_000 -/

namespace Asm

/-- The register-token grammar `/^x([0-9]|[12][0-9]|3[01])$/`. -/
def isRegister (t : List Char) : Bool :=
  match t with
  | 'x' :: rest =>
    match rest with
    | [d] => d.isDigit
    | [d1, d2] => ((d1 = '1' || d1 = '2') && d2.isDigit) ||
        (d1 = '3' && (d2 = '0' || d2 = '1'))
    | _ => false
  | _ => false

/-- The immediate-token grammar `/^-?\d+$/ || /^0x[0-9a-fA-F]+$/`. -/
def isImmediate (t : List Char) : Bool := isDecTok t || isHexTok t

/-- `reg(x) = parseInt(x.replace("x", ""))`: drop the first `x`, then JS
`parseInt`.  On tokens accepted by `isRegister` this is the register
number; the `NaN` case (unreachable after validation) is mapped to 0, which
matches the JS bit-level behavior of `NaN` in the encoders. -/
def reg (t : List Char) : Nat :=
  ((jsParseInt (removeFirst 'x' t)).getD 0).toNat

/-- `parseInt(tok)` as used for immediate operands; `NaN` behaves as 0 in
the encoders' bitwise operations. -/
def asmImm (t : List Char) : Int := (jsParseInt t).getD 0

/-- The `&` of an int32 value with a small nonnegative mask, as an
unsigned value. -/
def jsAndNat (x : Int) (m : Nat) : Nat := u32 x &&& m

/-- Encoder `R(f7, f3, op, rd, rs1, rs2)` from part_000. -/
def R (f7 f3 op rd rs1 rs2 : Nat) : Nat :=
  ((f7 <<< 25) % 2 ^ 32) ||| ((rs2 <<< 20) % 2 ^ 32) ||| ((rs1 <<< 15) % 2 ^ 32) |||
  ((f3 <<< 12) % 2 ^ 32) ||| ((rd <<< 7) % 2 ^ 32) ||| op

/-- Encoder `I(f3, op, rd, rs1, imm)` from part_000 (`imm &= 0xFFF`). -/
def I (f3 op rd rs1 : Nat) (imm : Int) : Nat :=
  let imm' := u32 imm &&& 0xFFF
  ((imm' <<< 20) % 2 ^ 32) ||| ((rs1 <<< 15) % 2 ^ 32) ||| ((f3 <<< 12) % 2 ^ 32) |||
  ((rd <<< 7) % 2 ^ 32) ||| op

/-- Encoder `S(f3, op, rs1, rs2, imm)` from part_000. -/
def S (f3 op rs1 rs2 : Nat) (imm : Int) : Nat :=
  let imm11_5 := jsAndNat (jsShrInt imm 5) 0x7F
  let imm4_0 := u32 imm &&& 0x1F
  ((imm11_5 <<< 25) % 2 ^ 32) ||| ((rs2 <<< 20) % 2 ^ 32) ||| ((rs1 <<< 15) % 2 ^ 32) |||
  ((f3 <<< 12) % 2 ^ 32) ||| ((imm4_0 <<< 7) % 2 ^ 32) ||| op

/-- Encoder `B(f3, op, rs1, rs2, imm)` from part_000 (note the source ors
the bit-11 piece before the bits-4:1 piece). -/
def B (f3 op rs1 rs2 : Nat) (imm : Int) : Nat :=
  let imm12 := jsAndNat (jsShrInt imm 12) 1
  let imm10_5 := jsAndNat (jsShrInt imm 5) 0x3F
  let imm4_1 := jsAndNat (jsShrInt imm 1) 0xF
  let imm11 := jsAndNat (jsShrInt imm 11) 1
  ((imm12 <<< 31) % 2 ^ 32) ||| ((imm10_5 <<< 25) % 2 ^ 32) ||| ((rs2 <<< 20) % 2 ^ 32) |||
  ((rs1 <<< 15) % 2 ^ 32) ||| ((f3 <<< 12) % 2 ^ 32) |||
  ((imm11 <<< 7) % 2 ^ 32) ||| ((imm4_1 <<< 8) % 2 ^ 32) ||| op

/-- ToInt32 over the JS number domain including NaN (`none` is NaN):
ToInt32(NaN) = 0. -/
def jsToInt32N : Option Int → Int
  | none => 0
  | some x => toInt32 x

/-- `x >> n` over the JS number domain including NaN: the operand goes
through ToInt32 first, so a NaN shifts to 0. -/
def jsShrIntN (x : Option Int) (n : Nat) : Int :=
  Int.fdiv (jsToInt32N x) (2 ^ (n % 32))

/-- The encoder `B` again, but over the JS number domain for its immediate:
the branch offset fed to `B` is NaN (`none`) when the label was only
inherited from Object.prototype (`targetAddr - pc` with a non-number
`targetAddr`).  Each immediate piece is `(imm >> k) & m`, and
`NaN >> k = 0`, so a NaN offset yields all-zero immediate fields.  On a
non-NaN immediate this is exactly `B` (`BN_some`). -/
def BN (f3 op rs1 rs2 : Nat) (imm : Option Int) : Nat :=
  let imm12 := jsAndNat (jsShrIntN imm 12) 1
  let imm10_5 := jsAndNat (jsShrIntN imm 5) 0x3F
  let imm4_1 := jsAndNat (jsShrIntN imm 1) 0xF
  let imm11 := jsAndNat (jsShrIntN imm 11) 1
  ((imm12 <<< 31) % 2 ^ 32) ||| ((imm10_5 <<< 25) % 2 ^ 32) ||| ((rs2 <<< 20) % 2 ^ 32) |||
  ((rs1 <<< 15) % 2 ^ 32) ||| ((f3 <<< 12) % 2 ^ 32) |||
  ((imm11 <<< 7) % 2 ^ 32) ||| ((imm4_1 <<< 8) % 2 ^ 32) ||| op

theorem BN_some (f3 op rs1 rs2 : Nat) (imm : Int) :
    BN f3 op rs1 rs2 (some imm) = B f3 op rs1 rs2 imm := rfl

/-- The errors thrown by `assembleProgram`, with the data the JS messages
carry: `expectRegisters` names the mnemonic and the offending token,
`expectImmediate` likewise, the branch-format check names the mnemonic, the
label check names the undefined label. -/
inductive AsmErr where
  | badReg (op tok : List Char)
  | badImm (op tok : List Char)
  | badBranchFormat (op : List Char)
  | undefLabel (label : List Char)
  deriving DecidableEq, Repr

/-- `expectRegisters(op, arr)`: throws at the first token failing the
register grammar. -/
def expectRegisters (op : List Char) : List (List Char) → Except AsmErr Unit
  | [] => .ok ()
  | r :: rest =>
    if isRegister r then expectRegisters op rest else .error (.badReg op r)

/-- `expectImmediate(op, imm)`. -/
def expectImmediate (op imm : List Char) : Except AsmErr Unit :=
  if isImmediate imm then .ok () else .error (.badImm op imm)

/-- Pass-2 tokenization: commas and parentheses become spaces, then split
on whitespace runs. -/
def tokenize (line : List Char) : List (List Char) :=
  jsSplitWs (line.map (fun c => if c = ',' ∨ c = '(' ∨ c = ')' then ' ' else c))

/-- A missing token (`p[i]` beyond the array) is JS `undefined`, which the
string operations coerce to `"undefined"`. -/
def tok (p : List (List Char)) (i : Nat) : List Char := p.getD i ("undefined".toList)

def endsWithColon (l : List Char) : Bool := l.getLast? = some ':'

/-- The table's own properties: bindings are prepended, lookup finds the
most recent one (JS object assignment: last definition wins).  This is the
own-property view (`labels.hasOwnProperty(name)` / the own value of
`labels[name]`); the `in` operator additionally walks the prototype chain
(`labelIn`). -/
def lookupLabel (labels : List (List Char × Nat)) (name : List Char) : Option Nat :=
  (labels.find? (fun kv => kv.1 = name)).map (fun kv => kv.2)

/-- JS `labels[name] = pc` on the plain object `labels = {}`: an
own-property write — except for the name `__proto__`, where the assignment
goes to the inherited `Object.prototype.__proto__` accessor, whose setter
silently ignores a number: no own property is created. -/
def labelSet (labels : List (List Char × Nat)) (name : List Char) (pc : Nat) :
    List (List Char × Nat) :=
  if name = "__proto__".toList then labels else (name, pc) :: labels

/-- The property names of `Object.prototype` (a web page, so the Annex B
accessors are present): `name in labels` is true for these even when no
label of that name was ever defined. -/
def protoKeys : List (List Char) :=
  ["constructor", "hasOwnProperty", "isPrototypeOf", "propertyIsEnumerable",
   "toLocaleString", "toString", "valueOf", "__proto__", "__defineGetter__",
   "__defineSetter__", "__lookupGetter__", "__lookupSetter__"].map String.toList

/-- JS `label in labels`: an own binding, or a property inherited from
`Object.prototype`. -/
def labelIn (labels : List (List Char × Nat)) (name : List Char) : Bool :=
  (lookupLabel labels name).isSome || decide (name ∈ protoKeys)

/-- Pass 1: collect labels.  A non-empty line ending in `:` writes
`labels[name] = pc` (first `:` removed, see `labelSet`); every other
non-empty line advances the pc by 4 — including comment lines, which pass 1
does not skip. -/
def pass1 : List (List Char) → Nat → List (List Char × Nat) →
    List (List Char × Nat) × Nat
  | [], pc, labels => (labels, pc)
  | raw :: rest, pc, labels =>
    let line := jsTrim raw
    if line = [] then pass1 rest pc labels
    else if endsWithColon line then
      pass1 rest pc (labelSet labels (removeFirst ':' line) pc)
    else pass1 rest (pc + 4) labels

def rMns : List (List Char) :=
  ["add", "sub", "and", "or", "xor", "sll", "srl", "sra"].map String.toList

def iMns : List (List Char) :=
  ["addi", "andi", "ori", "xori", "slti", "slli", "srli", "srai"].map String.toList

def bMns : List (List Char) :=
  ["beq", "bne", "blt", "bge", "bltu", "bgeu"].map String.toList

def functMapR (op : List Char) : Nat × Nat :=
  if op = "add".toList then (0x00, 0x0)
  else if op = "sub".toList then (0x20, 0x0)
  else if op = "and".toList then (0x00, 0x7)
  else if op = "or".toList then (0x00, 0x6)
  else if op = "xor".toList then (0x00, 0x4)
  else if op = "sll".toList then (0x00, 0x1)
  else if op = "srl".toList then (0x00, 0x5)
  else (0x20, 0x5)

def functMapI (op : List Char) : Nat :=
  if op = "addi".toList then 0x0
  else if op = "andi".toList then 0x7
  else if op = "ori".toList then 0x6
  else if op = "xori".toList then 0x4
  else if op = "slti".toList then 0x2
  else if op = "slli".toList then 0x1
  else 0x5

def funct3Map (op : List Char) : Nat :=
  if op = "beq".toList then 0x0
  else if op = "bne".toList then 0x1
  else if op = "blt".toList then 0x4
  else if op = "bge".toList then 0x5
  else if op = "bltu".toList then 0x6
  else 0x7

/-- The body of the pass-2 loop for one already-trimmed, non-blank,
non-comment, non-label line: dispatch on the mnemonic; an unrecognized
mnemonic is a warning and emits no word (`.ok none`). -/
def encodeLine (labels : List (List Char × Nat)) (pc : Nat) (line : List Char) :
    Except AsmErr (Option Nat) :=
  let p := tokenize line
  let op := tok p 0
  if op ∈ rMns then do
    expectRegisters op [tok p 1, tok p 2, tok p 3]
    let f := functMapR op
    .ok (some (R f.1 f.2 0x33 (reg (tok p 1)) (reg (tok p 2)) (reg (tok p 3))))
  else if op ∈ iMns then do
    expectRegisters op [tok p 1, tok p 2]
    expectImmediate op (tok p 3)
    let instr := I (functMapI op) 0x13 (reg (tok p 1)) (reg (tok p 2)) (asmImm (tok p 3))
    let instr := if op = "srai".toList then instr ||| ((0x20 <<< 25) % 2 ^ 32) else instr
    .ok (some instr)
  else if op = "lw".toList then do
    expectRegisters op [tok p 1, tok p 3]
    expectImmediate op (tok p 2)
    .ok (some (I 0x2 0x03 (reg (tok p 1)) (reg (tok p 3)) (asmImm (tok p 2))))
  else if op = "sw".toList then do
    expectRegisters op [tok p 1, tok p 3]
    expectImmediate op (tok p 2)
    .ok (some (S 0x2 0x23 (reg (tok p 3)) (reg (tok p 1)) (asmImm (tok p 2))))
  else if op ∈ bMns then
    if !(isRegister (tok p 1)) || !(isRegister (tok p 2)) then
      .error (.badBranchFormat op)
    else if !(labelIn labels (tok p 3)) then
      .error (.undefLabel (tok p 3))
    else
      -- targetAddr = labels[label]: the own binding's number, or — when the
      -- name is only inherited from Object.prototype — a non-number, so
      -- offset = targetAddr - pc is NaN (`none`)
      .ok (some (BN (funct3Map op) 0x63 (reg (tok p 1)) (reg (tok p 2))
        ((lookupLabel labels (tok p 3)).map (fun targetAddr =>
          (targetAddr : Int) - (pc : Int)))))
  else .ok none  -- console.warn("Instrucción desconocida"), no word emitted

/-- Pass 2: skip blank, comment (`#`/`//`) and label lines; encode every
other line, advancing the pc by 4 whether or not a word was emitted. -/
def pass2 (labels : List (List Char × Nat)) :
    List (List Char) → Nat → Except AsmErr (List Nat)
  | [], _ => .ok []
  | raw :: rest, pc =>
    let line := jsTrim raw
    if line = [] ∨ "#".toList.isPrefixOf line ∨ "//".toList.isPrefixOf line then
      pass2 labels rest pc
    else if endsWithColon line then pass2 labels rest pc
    else do
      let w? ← encodeLine labels pc line
      let ws ← pass2 labels rest (pc + 4)
      match w? with
      | some w => .ok (w :: ws)
      | none => .ok ws

/-- From src/unnamed/part_000: `assembleProgram(text)`, over the line list
(`text.split(/\r?\n/)`); the output words are normalized with `>>> 0`. -/
def assembleProgram (lines : List (List Char)) : Except AsmErr (List Nat) :=
  let labels := (pass1 lines 0 []).1
  (pass2 labels lines 0).map (List.map (fun x => x % 2 ^ 32))

/-- The pass-1 program counter after a list of lines. -/
def pass1pc (lines : List (List Char)) : Nat := (pass1 lines 0 []).2

/-- The pass-2 program counter after a list of lines (pass 2 skips blank,
comment and label lines). -/
def pass2pc : List (List Char) → Nat → Nat
  | [], pc => pc
  | raw :: rest, pc =>
    let line := jsTrim raw
    if line = [] ∨ "#".toList.isPrefixOf line ∨ "//".toList.isPrefixOf line then
      pass2pc rest pc
    else if endsWithColon line then pass2pc rest pc
    else pass2pc rest (pc + 4)

end Asm

/-! ### C7: the branch/label end-to-end scenario -/

/-- `x.toString(16).padStart(8, "0")` for a 32-bit word (main.js
`handleLoad`). -/
def natToHex8 (n : Nat) : List Char :=
  (List.range 8).reverse.map (fun i => Nat.digitChar (n / 16 ^ i % 16))

/-- The program-load path of main.js `handleLoad`: if the first trimmed
line is pure hex the text is loaded as is, otherwise it is assembled by
`assembleProgram` and the words are re-rendered as 8-digit hex lines;
either way the result goes through `cpu.loadProgram`.  Assembly or load
errors give `none`. -/
def handleLoad (s : CPUState) (code : List (List Char)) : Option (CPUState × Nat) :=
  let first := jsTrim (code.headD [])
  let program? : Option (List (List Char)) :=
    if first ≠ [] ∧ first.all isHexDigitChar then some code
    else (Asm.assembleProgram code).toOption.map (fun ws => ws.map natToHex8)
  program?.bind (fun program => (loadProgram s program).toOption)

/-- Counterexample for C7 as stated: loading `beq x0,x0,loop` followed by
`loop:` and stepping once leaves the pc at 4, not at the branch's own byte
address 0 — pass 1 binds `loop` to the address after the branch line. -/
theorem C7_counterexample :
    (handleLoad initState ["beq x0,x0,loop".toList, "loop:".toList]).map
      (fun p => (step p.1).1.pc) = some 4 ∧ (4 : Nat) ≠ 0 :=
  ⟨rfl, by decide⟩

/-- C7 (amended): the label `loop`, written after the branch, is bound to
byte address 4; after one step the pc equals that label address (encoded
offset +4) and the core is not halted. -/
theorem C7_branch_loop :
    Asm.lookupLabel
      (Asm.pass1 ["beq x0,x0,loop".toList, "loop:".toList] 0 []).1 "loop".toList
      = some 4
    ∧ (handleLoad initState ["beq x0,x0,loop".toList, "loop:".toList]).map
        (fun p => ((step p.1).1.pc, (step p.1).1.halted)) = some (4, false) :=
  ⟨rfl, rfl⟩

/-! ### C6: the two-pass program counters -/

/-- Generalized pc equality of the two assembler passes: on a line list with
no comment lines, pass 1 (which never skips comments) and pass 2 (which
does) advance their program counters identically from any start. -/
theorem Asm.pass_pc_eq (lines : List (List Char)) :
    ∀ (pc : Nat) (labels : List (List Char × Nat)),
    (∀ l ∈ lines, ¬("#".toList.isPrefixOf (jsTrim l) = true)
      ∧ ¬("//".toList.isPrefixOf (jsTrim l) = true)) →
    (Asm.pass1 lines pc labels).2 = Asm.pass2pc lines pc := by
  induction lines with
  | nil => intro pc labels _; rfl
  | cons raw rest ih =>
    intro pc labels h
    have hhead := h raw (List.mem_cons_self _ _)
    have htail := fun l hl => h l (List.mem_cons_of_mem _ hl)
    unfold Asm.pass1 Asm.pass2pc
    dsimp only
    by_cases hb : jsTrim raw = []
    · rw [if_pos hb, if_pos (Or.inl hb)]
      exact ih pc labels htail
    · have hcomment : ¬(jsTrim raw = [] ∨ "#".toList.isPrefixOf (jsTrim raw) = true
          ∨ "//".toList.isPrefixOf (jsTrim raw) = true) := by
        push_neg
        exact ⟨hb, hhead.1, hhead.2⟩
      rw [if_neg hb, if_neg hcomment]
      by_cases hc : Asm.endsWithColon (jsTrim raw) = true
      · rw [if_pos hc, if_pos hc]
        exact ih pc _ htail
      · rw [if_neg hc, if_neg hc]
        exact ih (pc + 4) labels htail

/-- Counterexample for C6 as stated: with a comment line between a label
and a branch, the assembler accepts the source, but at the branch line the
pass-1 pc is 4 while the pass-2 pc is 0 (pass 1 counts the comment line,
pass 2 skips it); the emitted word 0x63 encodes offset 0 = labels[loop] −
pass-2 pc, not an offset computed from the pass-1 pc. -/
theorem C6_counterexample :
    Asm.assembleProgram ["loop:".toList, "# c".toList, "beq x0 x0 loop".toList]
      = .ok [0x63]
    ∧ Asm.pass1pc (["loop:".toList, "# c".toList, "beq x0 x0 loop".toList].take 2) = 4
    ∧ Asm.pass2pc (["loop:".toList, "# c".toList, "beq x0 x0 loop".toList].take 2) 0 = 0
    ∧ (4 : Nat) ≠ 0
    ∧ (decode 0x63).imm = 0 :=
  ⟨rfl, rfl, rfl, by decide, rfl⟩

/-- C6 (amended): on sources with no comment lines the two passes track the
pc identically at every line; and every branch line with two valid register
tokens and a known label encodes exactly the byte offset
labelAddress − currentProgramCounter of pass 2. -/
theorem C6_pass_pc :
    (∀ (lines : List (List Char)),
      (∀ l ∈ lines, ¬("#".toList.isPrefixOf (jsTrim l) = true)
        ∧ ¬("//".toList.isPrefixOf (jsTrim l) = true)) →
      ∀ k : Nat, Asm.pass1pc (lines.take k) = Asm.pass2pc (lines.take k) 0)
    ∧ (∀ (labels : List (List Char × Nat)) (pc : Nat) (line : List Char) (addr : Nat),
      Asm.tok (Asm.tokenize line) 0 ∈ Asm.bMns →
      Asm.isRegister (Asm.tok (Asm.tokenize line) 1) = true →
      Asm.isRegister (Asm.tok (Asm.tokenize line) 2) = true →
      Asm.lookupLabel labels (Asm.tok (Asm.tokenize line) 3) = some addr →
      Asm.encodeLine labels pc line = .ok (some (Asm.B
        (Asm.funct3Map (Asm.tok (Asm.tokenize line) 0)) 0x63
        (Asm.reg (Asm.tok (Asm.tokenize line) 1))
        (Asm.reg (Asm.tok (Asm.tokenize line) 2))
        ((addr : Int) - (pc : Int))))) := by
  constructor
  · intro lines h k
    exact Asm.pass_pc_eq (lines.take k) 0 []
      (fun l hl => h l (List.take_subset k lines hl))
  · intro labels pc line addr hop h1 h2 haddr
    obtain ⟨op, hgen⟩ : ∃ t, Asm.tok (Asm.tokenize line) 0 = t := ⟨_, rfl⟩
    rw [hgen] at hop
    unfold Asm.encodeLine
    dsimp only
    rw [hgen]
    fin_cases hop <;>
      (rw [if_neg (by decide), if_neg (by decide), if_neg (by decide),
        if_neg (by decide), if_pos (by decide),
        if_neg (by simp [h1, h2]),
        if_neg (by simp [Asm.labelIn, haddr]), haddr]
       rfl)

/-- Witness for C6_pass_pc at concrete inputs. -/
theorem C6_pass_pc_witness :
    Asm.pass1pc (["beq x0,x0,loop".toList, "loop:".toList].take 2)
      = Asm.pass2pc (["beq x0,x0,loop".toList, "loop:".toList].take 2) 0
    ∧ Asm.encodeLine [("loop".toList, 0)] 8 "beq x1 x2 loop".toList
      = .ok (some (Asm.B 0 0x63 1 2 (-8))) := by
  refine ⟨C6_pass_pc.1 ["beq x0,x0,loop".toList, "loop:".toList] (by decide) 2, ?_⟩
  have h := C6_pass_pc.2 [("loop".toList, 0)] 8 "beq x1 x2 loop".toList 0
    (by decide) (by decide) (by decide) (by decide)
  exact h.trans rfl

/-! ### C9: assembler error conditions -/

/-- Spec-side characterization of the fatal assembly errors (this one
definition transcribes the spec's error enumeration, for comparison with
`encodeLine`), with the label clause amended for the prototype chain: a
required register position failing the register grammar, a required
immediate position failing the immediate grammar, or a branch whose label
is neither defined nor a property name inherited from `Object.prototype`
(`labelIn = false`; for an inherited name like `toString` the source does
NOT abort — see the C9 counterexample). -/
def Asm.specErrCond (labels : List (List Char × Nat)) (line : List Char) : Prop :=
  let p := Asm.tokenize line
  let op := Asm.tok p 0
  (op ∈ Asm.rMns ∧ (Asm.isRegister (Asm.tok p 1) = false
      ∨ Asm.isRegister (Asm.tok p 2) = false ∨ Asm.isRegister (Asm.tok p 3) = false))
  ∨ (op ∈ Asm.iMns ∧ (Asm.isRegister (Asm.tok p 1) = false
      ∨ Asm.isRegister (Asm.tok p 2) = false ∨ Asm.isImmediate (Asm.tok p 3) = false))
  ∨ (op = "lw".toList ∧ (Asm.isRegister (Asm.tok p 1) = false
      ∨ Asm.isRegister (Asm.tok p 3) = false ∨ Asm.isImmediate (Asm.tok p 2) = false))
  ∨ (op = "sw".toList ∧ (Asm.isRegister (Asm.tok p 1) = false
      ∨ Asm.isRegister (Asm.tok p 3) = false ∨ Asm.isImmediate (Asm.tok p 2) = false))
  ∨ (op ∈ Asm.bMns ∧ (Asm.isRegister (Asm.tok p 1) = false
      ∨ Asm.isRegister (Asm.tok p 2) = false
      ∨ Asm.labelIn labels (Asm.tok p 3) = false))

theorem Asm.expectRegisters_ok_iff (op : List Char) (rs : List (List Char)) :
    Asm.expectRegisters op rs = .ok () ↔ ∀ r ∈ rs, Asm.isRegister r = true := by
  induction rs with
  | nil => simp [Asm.expectRegisters]
  | cons r rest ih =>
    unfold Asm.expectRegisters
    by_cases hr : Asm.isRegister r = true
    · rw [if_pos hr]
      simp [List.forall_mem_cons, hr, ih]
    · rw [if_neg hr]
      simp [List.forall_mem_cons, hr]

theorem Asm.expectRegisters_error_iff (op : List Char) (rs : List (List Char)) :
    (∃ e, Asm.expectRegisters op rs = .error e) ↔ ¬∀ r ∈ rs, Asm.isRegister r = true := by
  constructor
  · rintro ⟨e, he⟩ hall
    rw [(Asm.expectRegisters_ok_iff op rs).mpr hall] at he
    exact Except.noConfusion he
  · intro hnall
    rcases h : Asm.expectRegisters op rs with e | u
    · exact ⟨e, rfl⟩
    · cases u
      exact absurd ((Asm.expectRegisters_ok_iff op rs).mp h) hnall

theorem Asm.expectImmediate_ok_iff (op t : List Char) :
    Asm.expectImmediate op t = .ok () ↔ Asm.isImmediate t = true := by
  unfold Asm.expectImmediate
  by_cases h : Asm.isImmediate t = true
  · rw [if_pos h]; simp [h]
  · rw [if_neg h]; simp [h]

theorem Asm.expectImmediate_error_iff (op t : List Char) :
    (∃ e, Asm.expectImmediate op t = .error e) ↔ Asm.isImmediate t = false := by
  unfold Asm.expectImmediate
  by_cases h : Asm.isImmediate t = true
  · rw [if_pos h]; simp [h]
  · rw [if_neg h]
    simp [Bool.not_eq_true] at h
    simp [h]

/-- Error propagation through the first statement of an `Except` do-block. -/
theorem except_bind_error_iff {α : Type} (f : Except Asm.AsmErr Unit)
    (k : Unit → Except Asm.AsmErr α) :
    (∃ e, (f >>= k) = .error e) ↔
      ((∃ e, f = .error e) ∨ (f = .ok () ∧ ∃ e, k () = .error e)) := by
  rcases hf : f with e | u
  · simp [Bind.bind, Except.bind]
  · cases u
    simp [Bind.bind, Except.bind]

/-- Counterexample for C9 as stated: `beq x0,x0,toString` references a
label that was never defined (the label table is empty), yet the assembler
does not abort — `"toString" in labels` is true through the prototype chain
of the plain object `{}`, the inherited `Object.prototype.toString` minus
the pc gives a NaN offset, and `B` masks NaN to all-zero immediate bits, so
the word 0x63 (offset 0) is emitted without error. -/
theorem C9_counterexample :
    Asm.assembleProgram ["beq x0,x0,toString".toList] = .ok [0x63]
    ∧ Asm.lookupLabel
        (Asm.pass1 ["beq x0,x0,toString".toList] 0 []).1 "toString".toList = none
    ∧ (decode 0x63).imm = 0 :=
  ⟨rfl, rfl, rfl⟩

/-- C9 (amended): `encodeLine` aborts with an error (naming, per `AsmErr`,
the offending mnemonic or token) exactly under the spec's error conditions
with the label clause amended for the prototype chain (`specErrCond`: the
branch label aborts only when `labelIn` is false, i.e. neither defined nor
an `Object.prototype` name); an unrecognized mnemonic instead yields
`.ok none` (line skipped, no word emitted); pass 2 still advances the pc by
4 on any non-blank, non-comment, non-label line, encodable or not; and a
branch whose label is only inherited from `Object.prototype` emits, without
error, the word whose NaN offset is masked to all-zero immediate bits
(`BN ... none`). -/
theorem C9_errors :
    (∀ (labels : List (List Char × Nat)) (pc : Nat) (line : List Char),
      (∃ e, Asm.encodeLine labels pc line = .error e) ↔ Asm.specErrCond labels line)
    ∧ (∀ (labels : List (List Char × Nat)) (pc : Nat) (line : List Char),
      Asm.tok (Asm.tokenize line) 0 ∉ Asm.rMns →
      Asm.tok (Asm.tokenize line) 0 ∉ Asm.iMns →
      Asm.tok (Asm.tokenize line) 0 ≠ "lw".toList →
      Asm.tok (Asm.tokenize line) 0 ≠ "sw".toList →
      Asm.tok (Asm.tokenize line) 0 ∉ Asm.bMns →
      Asm.encodeLine labels pc line = .ok none)
    ∧ (∀ (raw : List Char) (rest : List (List Char)) (pc : Nat),
      ¬(jsTrim raw = [] ∨ "#".toList.isPrefixOf (jsTrim raw) = true
        ∨ "//".toList.isPrefixOf (jsTrim raw) = true) →
      Asm.endsWithColon (jsTrim raw) = false →
      Asm.pass2pc (raw :: rest) pc = Asm.pass2pc rest (pc + 4))
    ∧ (∀ (labels : List (List Char × Nat)) (pc : Nat) (line : List Char),
      Asm.tok (Asm.tokenize line) 0 ∈ Asm.bMns →
      Asm.isRegister (Asm.tok (Asm.tokenize line) 1) = true →
      Asm.isRegister (Asm.tok (Asm.tokenize line) 2) = true →
      Asm.lookupLabel labels (Asm.tok (Asm.tokenize line) 3) = none →
      Asm.tok (Asm.tokenize line) 3 ∈ Asm.protoKeys →
      Asm.encodeLine labels pc line = .ok (some (Asm.BN
        (Asm.funct3Map (Asm.tok (Asm.tokenize line) 0)) 0x63
        (Asm.reg (Asm.tok (Asm.tokenize line) 1))
        (Asm.reg (Asm.tok (Asm.tokenize line) 2)) none))) := by
  refine ⟨?_, ?_, ?_, ?_⟩
  · intro labels pc line
    unfold Asm.encodeLine Asm.specErrCond
    dsimp only
    by_cases h1 : Asm.tok (Asm.tokenize line) 0 ∈ Asm.rMns
    · have hd := (by decide :
        ∀ x ∈ Asm.rMns, x ∉ Asm.iMns ∧ x ≠ "lw".toList ∧ x ≠ "sw".toList ∧ x ∉ Asm.bMns)
        _ h1
      rw [if_pos h1, except_bind_error_iff,
        Asm.expectRegisters_error_iff, Asm.expectRegisters_ok_iff]
      by_cases hr1 : Asm.isRegister (Asm.tok (Asm.tokenize line) 1) = true <;>
        by_cases hr2 : Asm.isRegister (Asm.tok (Asm.tokenize line) 2) = true <;>
        by_cases hr3 : Asm.isRegister (Asm.tok (Asm.tokenize line) 3) = true <;>
        simp_all [List.forall_mem_cons, Bool.not_eq_true]
    · by_cases h2 : Asm.tok (Asm.tokenize line) 0 ∈ Asm.iMns
      · have hd := (by decide :
          ∀ x ∈ Asm.iMns, x ≠ "lw".toList ∧ x ≠ "sw".toList ∧ x ∉ Asm.bMns) _ h2
        rw [if_neg h1, if_pos h2, except_bind_error_iff]
        rw [except_bind_error_iff, Asm.expectRegisters_error_iff,
          Asm.expectRegisters_ok_iff, Asm.expectImmediate_error_iff,
          Asm.expectImmediate_ok_iff]
        by_cases hr1 : Asm.isRegister (Asm.tok (Asm.tokenize line) 1) = true <;>
          by_cases hr2 : Asm.isRegister (Asm.tok (Asm.tokenize line) 2) = true <;>
          by_cases hi : Asm.isImmediate (Asm.tok (Asm.tokenize line) 3) = true <;>
          simp_all [List.forall_mem_cons, Bool.not_eq_true]
      · by_cases h3 : Asm.tok (Asm.tokenize line) 0 = "lw".toList
        · have hsw : Asm.tok (Asm.tokenize line) 0 ≠ "sw".toList := by rw [h3]; decide
          have hbm : Asm.tok (Asm.tokenize line) 0 ∉ Asm.bMns := by rw [h3]; decide
          rw [if_neg h1, if_neg h2, if_pos h3, except_bind_error_iff]
          rw [except_bind_error_iff, Asm.expectRegisters_error_iff,
            Asm.expectRegisters_ok_iff, Asm.expectImmediate_error_iff,
            Asm.expectImmediate_ok_iff]
          by_cases hr1 : Asm.isRegister (Asm.tok (Asm.tokenize line) 1) = true <;>
            by_cases hr3 : Asm.isRegister (Asm.tok (Asm.tokenize line) 3) = true <;>
            by_cases hi : Asm.isImmediate (Asm.tok (Asm.tokenize line) 2) = true <;>
            simp_all [List.forall_mem_cons, Bool.not_eq_true]
        · by_cases h4 : Asm.tok (Asm.tokenize line) 0 = "sw".toList
          · have hbm : Asm.tok (Asm.tokenize line) 0 ∉ Asm.bMns := by rw [h4]; decide
            rw [if_neg h1, if_neg h2, if_neg h3, if_pos h4, except_bind_error_iff]
            rw [except_bind_error_iff, Asm.expectRegisters_error_iff,
              Asm.expectRegisters_ok_iff, Asm.expectImmediate_error_iff,
              Asm.expectImmediate_ok_iff]
            by_cases hr1 : Asm.isRegister (Asm.tok (Asm.tokenize line) 1) = true <;>
              by_cases hr3 : Asm.isRegister (Asm.tok (Asm.tokenize line) 3) = true <;>
              by_cases hi : Asm.isImmediate (Asm.tok (Asm.tokenize line) 2) = true <;>
              simp_all [List.forall_mem_cons, Bool.not_eq_true]
          · by_cases h5 : Asm.tok (Asm.tokenize line) 0 ∈ Asm.bMns
            · rw [if_neg h1, if_neg h2, if_neg h3, if_neg h4, if_pos h5]
              by_cases hr1 : Asm.isRegister (Asm.tok (Asm.tokenize line) 1) = true <;>
                by_cases hr2 : Asm.isRegister (Asm.tok (Asm.tokenize line) 2) = true <;>
                by_cases hin :
                  Asm.labelIn labels (Asm.tok (Asm.tokenize line) 3) = true <;>
                simp_all [Bool.not_eq_true]
            · rw [if_neg h1, if_neg h2, if_neg h3, if_neg h4, if_neg h5]
              simp_all
  · intro labels pc line h1 h2 h3 h4 h5
    unfold Asm.encodeLine
    dsimp only
    rw [if_neg h1, if_neg h2, if_neg h3, if_neg h4, if_neg h5]
  · intro raw rest pc hcm hc
    have he : Asm.pass2pc (raw :: rest) pc =
        if jsTrim raw = [] ∨ "#".toList.isPrefixOf (jsTrim raw) = true
          ∨ "//".toList.isPrefixOf (jsTrim raw) = true then Asm.pass2pc rest pc
        else if Asm.endsWithColon (jsTrim raw) = true then Asm.pass2pc rest pc
        else Asm.pass2pc rest (pc + 4) := by
      simp only [Asm.pass2pc]
    rw [he, if_neg hcm, if_neg (by simp [hc])]
  · intro labels pc line hop h1 h2 hnone hproto
    obtain ⟨op, hgen⟩ : ∃ t, Asm.tok (Asm.tokenize line) 0 = t := ⟨_, rfl⟩
    rw [hgen] at hop
    unfold Asm.encodeLine
    dsimp only
    rw [hgen]
    fin_cases hop <;>
      (rw [if_neg (by decide), if_neg (by decide), if_neg (by decide),
        if_neg (by decide), if_pos (by decide),
        if_neg (by simp [h1, h2]),
        if_neg (by simp [Asm.labelIn, hnone, hproto]), hnone]
       rfl)

/-- Witness for C9_errors at concrete inputs: an unknown mnemonic is
skipped without error, the pc still advances past an ordinary line, and a
branch on the inherited name `toString` emits the NaN-masked word. -/
theorem C9_errors_witness :
    Asm.encodeLine [] 0 "frobnicate x1".toList = .ok none
    ∧ Asm.pass2pc ["add x1 x2 x3".toList] 0 = Asm.pass2pc [] 4
    ∧ Asm.encodeLine [] 0 "beq x0 x0 toString".toList
        = .ok (some (Asm.BN 0 0x63 0 0 none)) := by
  refine ⟨?_, ?_, ?_⟩
  · exact C9_errors.2.1 [] 0 "frobnicate x1".toList
      (by decide) (by decide) (by decide) (by decide) (by decide)
  · exact C9_errors.2.2.1 "add x1 x2 x3".toList [] 0 (by decide) (by decide)
  · have h := C9_errors.2.2.2 [] 0 "beq x0 x0 toString".toList
      (by decide) (by decide) (by decide) (by decide) (by decide)
    exact h.trans rfl
